import Mathlib

/-!
Verification of the sentinel credential-isolating gateway.

A shallow embedding of the request-admission and forwarding pipeline of the
sentinel gateway (src/security.ts, src/auth.ts, src/rateLimit.ts), together
with proofs and refutations of the specification's claims about it.

JavaScript strings are modelled as Lean `String`s; the JavaScript string
operations the source uses (`split`, `toLowerCase`, `toUpperCase`,
`startsWith`, `padStart`, `includes`, `replace`, `parseInt`, `Number`) are
re-implemented here over `List Char` by structural recursion so that every
definition evaluates inside the kernel.  Case mapping is ASCII-only (the
strings the gateway compares against are all ASCII).  JavaScript objects and
`Map`s are modelled as association lists / lookup functions, `undefined`
as `Option.none`, and JavaScript numbers in the ranges the gateway uses as
`Int` / `Nat` (with explicit `% 2^32` where the source relies on 32-bit
coercion of bitwise operators).
-/

set_option maxRecDepth 20000

/-! ## JavaScript string primitives -/

/-- ASCII lower-casing of one character, as `String.prototype.toLowerCase`
acts on the ASCII range (the only range the gateway's comparisons use). -/
def charLower (c : Char) : Char :=
  if 'A' ≤ c ∧ c ≤ 'Z' then Char.ofNat (c.toNat + 32) else c

/-- ASCII upper-casing of one character. -/
def charUpper (c : Char) : Char :=
  if 'a' ≤ c ∧ c ≤ 'z' then Char.ofNat (c.toNat - 32) else c

/-- The term `s.toLowerCase()` (ASCII range). -/
def jsToLower (s : String) : String := String.mk (s.data.map charLower)

/-- The term `s.toUpperCase()` (ASCII range). -/
def jsToUpper (s : String) : String := String.mk (s.data.map charUpper)

/-- Does the character list `s` start with the list `p`? -/
def startsWithL : List Char → List Char → Bool
  | [], _ => true
  | _ :: _, [] => false
  | p :: ps, c :: cs => p == c && startsWithL ps cs

/-- The term `s.startsWith(p)`. -/
def jsStartsWith (s p : String) : Bool := startsWithL p.data s.data

/-- Fuel-indexed worker for `split`: scans `s`, cutting at each
non-overlapping occurrence of the non-empty separator `sep`. -/
def splitAux (sep : List Char) : Nat → List Char → List Char → List (List Char)
  | 0, _, acc => [acc.reverse]
  | _ + 1, [], acc => [acc.reverse]
  | fuel + 1, c :: rest, acc =>
    if startsWithL sep (c :: rest) then
      acc.reverse :: splitAux sep fuel (List.drop sep.length (c :: rest)) []
    else
      splitAux sep fuel rest (c :: acc)

/-- Split a character list on a non-empty separator (JavaScript
`String.prototype.split` with a non-empty string separator). -/
def splitList (s sep : List Char) : List (List Char) :=
  splitAux sep (s.length + 1) s []

/-- The term `s.split(sep)` for a non-empty string separator (the only form the
gateway uses). -/
def jsSplit (s sep : String) : List String :=
  (splitList s.data sep.data).map String.mk

/-- The term `s.padStart(n, "0")`. -/
def jsPadStartZero (s : String) (n : Nat) : String :=
  String.mk (List.replicate (n - s.data.length) '0' ++ s.data)

/-- Strip all trailing `'/'` characters: the effect of
`origin.replace(/\/+$/, "")` in `checkAllowlist`. -/
def stripTrailingSlashes (s : String) : String :=
  String.mk ((s.data.reverse.dropWhile (· == '/')).reverse)

/-- Does `s` contain `p` as a contiguous substring?  Fuel-indexed scan. -/
def containsAux (p : List Char) : Nat → List Char → Bool
  | 0, s => startsWithL p s
  | fuel + 1, s =>
    startsWithL p s ||
      match s with
      | [] => false
      | _ :: rest => containsAux p fuel rest

/-- The term `s.includes(p)`. -/
def jsIncludes (s p : String) : Bool := containsAux p.data s.data.length s.data

/-- Value of one decimal digit, if `c` is one. -/
def decDigitVal (c : Char) : Option Nat :=
  if '0' ≤ c ∧ c ≤ '9' then some (c.toNat - '0'.toNat) else none

/-- Value of one hexadecimal digit, if `c` is one (either case). -/
def hexDigitVal (c : Char) : Option Nat :=
  if '0' ≤ c ∧ c ≤ '9' then some (c.toNat - '0'.toNat)
  else if 'a' ≤ c ∧ c ≤ 'f' then some (c.toNat - 'a'.toNat + 10)
  else if 'A' ≤ c ∧ c ≤ 'F' then some (c.toNat - 'A'.toNat + 10)
  else none

/-- Accumulate the longest prefix of digits of the given base;
`none` when the very first character is not a digit. -/
def digitsPrefixVal (digitVal : Char → Option Nat) (base : Nat) :
    List Char → Option Nat → Option Nat
  | [], acc => acc
  | c :: cs, acc =>
    match digitVal c with
    | none => acc
    | some d => digitsPrefixVal digitVal base cs (some ((acc.getD 0) * base + d))

/-- The term `parseInt(s, 10)`: skip leading whitespace, optional sign, then the
longest prefix of decimal digits; `none` models `NaN`. -/
def jsParseIntDec (s : String) : Option Int :=
  let t := s.data.dropWhile (·.isWhitespace)
  match t with
  | '-' :: rest => (digitsPrefixVal decDigitVal 10 rest none).map (fun n => -(n : Int))
  | '+' :: rest => (digitsPrefixVal decDigitVal 10 rest none).map (fun n => (n : Int))
  | _ => (digitsPrefixVal decDigitVal 10 t none).map (fun n => (n : Int))

/-- Strip an optional `0x` / `0X` prefix, as `parseInt(_, 16)` does. -/
def stripHexMark : List Char → List Char
  | '0' :: 'x' :: rest => rest
  | '0' :: 'X' :: rest => rest
  | l => l

/-- The term `parseInt(s, 16)`: skip leading whitespace, optional sign, optional
`0x`, then the longest prefix of hex digits; `none` models `NaN`. -/
def jsParseIntHex (s : String) : Option Int :=
  let t := s.data.dropWhile (·.isWhitespace)
  match t with
  | '-' :: rest =>
    (digitsPrefixVal hexDigitVal 16 (stripHexMark rest) none).map (fun n => -(n : Int))
  | '+' :: rest =>
    (digitsPrefixVal hexDigitVal 16 (stripHexMark rest) none).map (fun n => (n : Int))
  | _ => (digitsPrefixVal hexDigitVal 16 (stripHexMark t) none).map (fun n => (n : Int))

/-- The term `Number(s)` restricted to the strings `ipToBytes` feeds it: the octet
fields of an address that `net.isIPv4` accepted, i.e. plain decimal
numerals.  On such strings `Number` is their decimal value. -/
def jsNumberOctet (s : String) : Nat :=
  (digitsPrefixVal decDigitVal 10 s.data none).getD 0

/-- The value of the low 32 bits of a JavaScript number, as produced by the
`ToInt32` coercion that `>>` and `&` apply, read as an unsigned quantity.
Masking a shifted value with `0xff` reads bits of this representation, so
all byte extractions below go through it. -/
def toUint32 (v : Int) : Nat := (v % 4294967296).toNat

/-! ## Address classification (Node `net.isIPv4` / `net.isIPv6` / `net.isIP`)

`security.ts` delegates address-family classification to Node's `net`
module.  The definitions below transliterate the regular expressions Node
uses: an IPv4 address is four dot-separated decimal octets `0..255` with no
leading zeros; an IPv6 address is eight colon-separated hex groups of 1-4
digits, optionally compressed with one `::` (total groups at most 7 when a
`::` is present), optionally ending in an embedded IPv4 quad (worth two
groups), optionally followed by a `%zone` suffix. -/

def isDigitChar (c : Char) : Bool := '0' ≤ c && c ≤ '9'

/-- One octet field of an IPv4 address per Node's regex
`25[0-5]|2[0-4][0-9]|1[0-9][0-9]|[1-9][0-9]|[0-9]`. -/
def isV4Octet (s : String) : Bool :=
  let cs := s.data
  decide (1 ≤ cs.length) && decide (cs.length ≤ 3) &&
  cs.all isDigitChar &&
  (decide (cs.length = 1) || decide (cs.headD '0' ≠ '0')) &&
  decide (jsNumberOctet s ≤ 255)

/-- Node `net.isIPv4`. -/
def isIPv4String (ip : String) : Bool :=
  let parts := jsSplit ip "."
  decide (parts.length = 4) && parts.all isV4Octet

def isHexDigitChar (c : Char) : Bool := (hexDigitVal c).isSome

/-- One hex group of an IPv6 address: 1-4 hex digits. -/
def isHexGroup (s : String) : Bool :=
  decide (1 ≤ s.data.length) && decide (s.data.length ≤ 4) && s.data.all isHexDigitChar

/-- Characters Node allows in a `%zone` suffix: `[0-9a-zA-Z-.:]`. -/
def isZoneChar (c : Char) : Bool :=
  isDigitChar c || c.isAlpha || c == '-' || c == '.' || c == ':'

/-- The part of Node's IPv6 regex before the optional `%zone` suffix. -/
def isIPv6Main (main : String) : Bool :=
  let halves := jsSplit main "::"
  if halves.length == 1 then
    let gs := jsSplit main ":"
    (gs.length == 8 && gs.all isHexGroup) ||
    (gs.length == 7 && (gs.take 6).all isHexGroup && isIPv4String (gs.getD 6 ""))
  else if halves.length == 2 then
    let ls := if halves.headD "" == "" then [] else jsSplit (halves.headD "") ":"
    let rs := if halves.getD 1 "" == "" then [] else jsSplit (halves.getD 1 "") ":"
    ls.all isHexGroup &&
      ((rs.all isHexGroup && decide (ls.length + rs.length ≤ 7)) ||
       (decide (rs ≠ []) && rs.dropLast.all isHexGroup &&
        isIPv4String (rs.getLastD "") && decide (ls.length + rs.length + 1 ≤ 7)))
  else false

/-- Node `net.isIPv6`. -/
def isIPv6String (ip : String) : Bool :=
  let parts := jsSplit ip "%"
  if parts.length == 1 then isIPv6Main ip
  else if parts.length == 2 then
    isIPv6Main (parts.headD "") && decide (parts.getD 1 "" ≠ "") &&
      (parts.getD 1 "").data.all isZoneChar
  else false

/-- Node `net.isIP` read as a Boolean (the source only tests truthiness). -/
def isIP (ip : String) : Bool := isIPv4String ip || isIPv6String ip

/-! ## CIDR parsing and matching (`security.ts`) -/

/-- Result of `parseCidr`.  The source's range guard `0 <= prefixLen <=
maxBits` lets us carry the prefix length as a `Nat`. -/
structure Cidr where
  ip : String
  prefixLen : Nat
deriving DecidableEq, Repr

/-- The term `parseCidr` from `security.ts`: split on `/`, require exactly two
parts, `parseInt` the second, require the first to be an IP address and
the prefix length to lie within the family's bit width. -/
def parseCidr (cidr : String) : Option Cidr :=
  let parts := jsSplit cidr "/"
  if parts.length ≠ 2 then none
  else
    let ip := parts.headD ""
    match jsParseIntDec (parts.getD 1 "") with
    | none => none
    | some pl =>
      if ¬ isIP ip then none
      else
        let maxBits : Int := if isIPv4String ip then 32 else 128
        if pl < 0 ∨ pl > maxBits then none
        else some ⟨ip, pl.toNat⟩

/-- The term `expandIPv6` from `security.ts`: split on `::`; with no `::`, pad each
colon-separated group to 4 digits; otherwise splice zero groups between
the left and right halves to reach 8 groups.  (`8 - left - right` is `Nat`
subtraction; on the `net.isIP`-guarded call sites it is never negative.) -/
def expandIPv6 (ip : String) : List String :=
  let halves := jsSplit ip "::"
  if halves.length = 1 then
    (jsSplit ip ":").map (fun g => jsPadStartZero g 4)
  else
    let left := if halves.headD "" ≠ "" then jsSplit (halves.headD "") ":" else []
    let right := if halves.getD 1 "" ≠ "" then jsSplit (halves.getD 1 "") ":" else []
    let missing := 8 - left.length - right.length
    let middle := List.replicate missing "0000"
    (left ++ middle ++ right).map (fun g => jsPadStartZero g 4)

/-- The term `parseInt(groups[i], 16)` with `groups[i]` possibly `undefined`;
`none` models `NaN`. -/
def groupVal (groups : List String) (i : Nat) : Option Int :=
  match groups[i]? with
  | none => none
  | some g => jsParseIntHex g

/-- The term `(val >> 8) & 0xff` with `val` possibly `NaN` (`NaN` coerces to 0). -/
def byteHi (v : Option Int) : Nat :=
  match v with
  | none => 0
  | some v => toUint32 v / 256 % 256

/-- The term `val & 0xff` with `val` possibly `NaN`. -/
def byteLo (v : Option Int) : Nat :=
  match v with
  | none => 0
  | some v => toUint32 v % 256

/-- The term `ipToBytes` from `security.ts`: IPv4 addresses become their four
octets via `Number`; everything else goes through `expandIPv6` and the
byte-filling loop over groups 0-7 (unrolled here). -/
def ipToBytes (ip : String) : List Nat :=
  if isIPv4String ip then (jsSplit ip ".").map jsNumberOctet
  else
    let g := expandIPv6 ip
    [byteHi (groupVal g 0), byteLo (groupVal g 0),
     byteHi (groupVal g 1), byteLo (groupVal g 1),
     byteHi (groupVal g 2), byteLo (groupVal g 2),
     byteHi (groupVal g 3), byteLo (groupVal g 3),
     byteHi (groupVal g 4), byteLo (groupVal g 4),
     byteHi (groupVal g 5), byteLo (groupVal g 5),
     byteHi (groupVal g 6), byteLo (groupVal g 6),
     byteHi (groupVal g 7), byteLo (groupVal g 7)]

/-- The term `bytes[i]`, with index overrun reading as 0 (a JavaScript overrun reads
`undefined`, which compares equal to `undefined` and masks to 0; on the
`net.isIP`-guarded paths the index never overruns). -/
def byteAt (l : List Nat) (i : Nat) : Nat := l.getD i 0

/-- The `for` loop of `ipMatchesEntry`: do the first `k` bytes agree? -/
def bytesEqUpTo (c e : List Nat) : Nat → Bool
  | 0 => true
  | k + 1 => bytesEqUpTo c e k && (byteAt c k == byteAt e k)

/-- The term `ipMatchesEntry` from `security.ts`: CIDR entries require the same
address family, equality of the first `prefixLen / 8` bytes and equality
of the next byte under the mask `0xff << (8 - prefixLen % 8)`; non-CIDR
entries require exact textual equality. -/
def ipMatchesEntry (clientIp entry : String) : Bool :=
  match parseCidr entry with
  | some cidr =>
    if (if isIPv4String clientIp then (4 : Nat) else 6) ≠
       (if isIPv4String cidr.ip then (4 : Nat) else 6) then false
    else
      let clientBytes := ipToBytes clientIp
      let entryBytes := ipToBytes cidr.ip
      let fullBytes := cidr.prefixLen / 8
      let remainBits := cidr.prefixLen % 8
      bytesEqUpTo clientBytes entryBytes fullBytes &&
        (if remainBits > 0 then
          let mask := 255 <<< (8 - remainBits)
          byteAt clientBytes fullBytes &&& mask == byteAt entryBytes fullBytes &&& mask
        else true)
  | none => clientIp == entry

example : isIPv4String "10.0.0.5" = true := by decide
example : isIPv4String "10.0.0.256" = false := by decide
example : isIPv4String "10.0.00.5" = false := by decide
example : isIPv6String "::1" = true := by decide
example : isIPv6String "2001:db8::ff00:42:8329" = true := by decide
example : isIPv6String "1:2:3:4:5:6:7:8:9" = false := by decide
example : parseCidr "10.0.0.0/22" = some ⟨"10.0.0.0", 22⟩ := by decide
example : parseCidr "10.0.0.0/33" = none := by decide
example : parseCidr "::1/128" = some ⟨"::1", 128⟩ := by decide
example : expandIPv6 "::1" =
    ["0000", "0000", "0000", "0000", "0000", "0000", "0000", "0001"] := by decide
example : ipMatchesEntry "10.0.0.5" "10.0.0.0/22" = true := by decide
example : ipMatchesEntry "10.0.4.1" "10.0.0.0/22" = false := by decide
example : ipMatchesEntry "::1" "::1/128" = true := by decide
example : ipMatchesEntry "::2" "::1/128" = false := by decide
example : ipMatchesEntry "1.2.3.4" "1.2.3.4" = true := by decide

/-! ## Configuration data model (`types.ts`) -/

/-- The tagged auth-injection union from `types.ts`
(`HeaderAuth | QueryAuth`). -/
inductive AuthConfig
  | header (header_name : String) (template : String)
  | query (query_param : String) (template : String)
deriving DecidableEq, Repr

/-- The term `service.auth.template`, defined for both variants. -/
def AuthConfig.template : AuthConfig → String
  | .header _ t => t
  | .query _ t => t

/-- The term `ServiceConfig` from `types.ts`; optional fields are `Option`s. -/
structure ServiceConfig where
  base_url : String
  allowed_hosts : List String
  auth : AuthConfig
  secret_env : String
  allowed_methods : Option (List String) := none
  allowed_path_prefixes : Option (List String) := none
  timeout_ms : Option Int := none
  rate_limit_per_minute : Option Int := none
  allowed_ips : Option (List String) := none
  allowed_origins : Option (List String) := none
deriving DecidableEq, Repr

/-- The top-level allowlists of `services.yaml` (`GlobalConfig`). -/
structure GlobalConfig where
  allowed_ips : Option (List String) := none
  allowed_origins : Option (List String) := none
deriving DecidableEq, Repr

/-- The term `AgentConfig` from `types.ts`. -/
structure AgentConfig where
  token : String
  allowed_services : List String
  rate_limit_per_minute : Option Int := none
  allowed_ips : Option (List String) := none
deriving DecidableEq, Repr

/-- The term `ResolvedAgent` from `types.ts`. -/
structure ResolvedAgent where
  name : String
  config : AgentConfig
deriving DecidableEq, Repr

/-- A request body value: either already a string or some other JSON value,
carried here as the text `JSON.stringify` would produce for it. -/
inductive BodyVal
  | str (s : String)
  | jsonValue (serialized : String)
deriving DecidableEq, Repr

/-- The term `ProxyRequestBody` from `types.ts`.  `method`/`path` are strings (the
source rejects non-strings up front); the empty string models the falsy
missing case that `!body.method` / `!body.path` catch. -/
structure ProxyRequestBody where
  method : String
  path : String
  headers : Option (List (String × String)) := none
  body : Option BodyVal := none
deriving DecidableEq, Repr

/-- The request data the proxy handler reads from the Express request:
route parameter, resolved client address (`req.ip`), the `origin` and
`referer` headers, and the agent identity attached by the token
middleware (`none` in legacy single-token mode). -/
structure ReqCtx where
  serviceName : String
  clientIp : Option String := none
  originHeader : Option String := none
  refererHeader : Option String := none
  agent : Option ResolvedAgent := none
  body : ProxyRequestBody
deriving DecidableEq, Repr

/-- JavaScript `a ?? b` on optional values. -/
def jsCoalesce {α : Type} (a b : Option α) : Option α :=
  match a with
  | some x => some x
  | none => b

/-! ## Header sanitisation (`security.ts`) -/

/-- The `STRIPPED_HEADERS` set. -/
def STRIPPED_HEADERS : List String :=
  ["authorization", "cookie", "set-cookie", "proxy-authorization", "x-api-key", "host"]

/-- JavaScript object property assignment `o[k] = v` on an association
list: overwrite in place if the key exists, else append. -/
def objSet (l : List (String × String)) (k v : String) : List (String × String) :=
  if l.any (fun kv => kv.1 == k) then
    l.map (fun kv => if kv.1 == k then (k, v) else kv)
  else l ++ [(k, v)]

/-- The term `sanitizeHeaders` from `security.ts`: copy every entry whose
lower-cased key is not in `STRIPPED_HEADERS` into a fresh object. -/
def sanitizeHeaders (agentHeaders : Option (List (String × String))) :
    List (String × String) :=
  match agentHeaders with
  | none => []
  | some hs =>
    hs.foldl
      (fun clean kv =>
        if STRIPPED_HEADERS.contains (jsToLower kv.1) then clean
        else objSet clean kv.1 kv.2)
      []

/-! ## Request shape validation (`security.ts`) -/

/-- The term `list.join(", ")`. -/
def joinCommaSpace : List String → String
  | [] => ""
  | [s] => s
  | s :: rest => s ++ ", " ++ joinCommaSpace rest

/-- The regex test `/^https?:\/\//i.test(path)`. -/
def isAbsoluteUrl (path : String) : Bool :=
  jsStartsWith (jsToLower path) "http://" || jsStartsWith (jsToLower path) "https://"

/-- The term `validateRequest` from `security.ts`: method present and allowed, path
present, relative, and within the declared path-name allowlist.  Returns
`some errorMessage` exactly where the source returns an error string. -/
def validateRequest (service : ServiceConfig) (body : ProxyRequestBody) :
    Option String :=
  if body.method = "" then some "Missing or invalid \x27method\x27"
  else
    let method := jsToUpper body.method
    let methodErr :=
      match service.allowed_methods with
      | some ms =>
        let allowed := ms.map jsToUpper
        if ¬ allowed.contains method then
          some ("Method \"" ++ method ++ "\" not allowed. Allowed: " ++ joinCommaSpace allowed)
        else none
      | none => none
    match methodErr with
    | some e => some e
    | none =>
      if body.path = "" then some "Missing or invalid \x27path\x27"
      else if ¬ jsStartsWith body.path "/" then some "Path must start with \x27/\x27"
      else if isAbsoluteUrl body.path then
        some "Path must be a relative path, not a full URL"
      else
        match service.allowed_path_prefixes with
        | some pres =>
          let pathOnly := (jsSplit body.path "?").headD ""
          if pres.any (fun pre => jsStartsWith pathOnly pre) then none
          else
            some ("Path \"" ++ pathOnly ++ "\" not allowed. Allowed prefixes: " ++
              joinCommaSpace pres)
        | none => none

/-! ## IP / Origin allowlists (`security.ts`) -/

/-- The term `checkAllowlist` from `security.ts`: the effective service/global IP
allowlist, then the effective service/global Origin allowlist, in that
order; `some errorMessage` at the first failing check. -/
def checkAllowlist (ctx : ReqCtx) (service : ServiceConfig) (g : GlobalConfig) :
    Option String :=
  let effectiveIps := jsCoalesce service.allowed_ips g.allowed_ips
  let ipErr : Option String :=
    match effectiveIps with
    | some ips =>
      if ips.length > 0 then
        match ctx.clientIp with
        | none => some "Could not determine client IP"
        | some clientIp =>
          if ¬ isIP clientIp then some "Could not determine client IP"
          else if ips.any (fun entry => ipMatchesEntry clientIp entry) then none
          else some ("IP " ++ clientIp ++ " is not in the allowlist")
      else none
    | none => none
  match ipErr with
  | some e => some e
  | none =>
    let effectiveOrigins := jsCoalesce service.allowed_origins g.allowed_origins
    match effectiveOrigins with
    | some origins =>
      if origins.length > 0 then
        match jsCoalesce ctx.originHeader ctx.refererHeader with
        | none => some "Missing Origin header and request is not in the origin allowlist"
        | some origin =>
          if origin = "" then
            some "Missing Origin header and request is not in the origin allowlist"
          else
            let normalized := stripTrailingSlashes origin
            if origins.contains normalized then none
            else some ("Origin \"" ++ normalized ++ "\" is not in the allowlist")
      else none
    | none => none

/-- The term `checkAgentIpAllowlist` from `security.ts`. -/
def checkAgentIpAllowlist (ctx : ReqCtx) (agent : ResolvedAgent) : Option String :=
  match agent.config.allowed_ips with
  | none => none
  | some allowedIps =>
    if allowedIps.length = 0 then none
    else
      match ctx.clientIp with
      | none => some "Could not determine client IP"
      | some clientIp =>
        if ¬ isIP clientIp then some "Could not determine client IP"
        else if allowedIps.any (fun entry => ipMatchesEntry clientIp entry) then none
        else
          some ("IP " ++ clientIp ++ " is not in agent \"" ++ agent.name ++
            "\" IP allowlist")

/-! ## Fixed-window rate limiting (`rateLimit.ts`) -/

/-- One rate bucket: request count and window start (ms since epoch). -/
structure Bucket where
  count : Nat
  windowStart : Int
deriving DecidableEq, Repr

/-- The process-wide bucket map, modelled as a lookup function. -/
def Buckets : Type := String → Option Bucket

/-- The term `buckets.set(key, v)`. -/
def bucketsSet (b : Buckets) (key : String) (v : Bucket) : Buckets :=
  fun k => if k = key then some v else b k

def WINDOW_MS : Int := 60000

/-- The term `checkRateLimit` from `rateLimit.ts`, with the bucket map and the
clock (`Date.now()`) passed explicitly: no/non-positive limit always
allows and leaves the map untouched; a missing or expired bucket starts a
new window with count 1; otherwise the call is allowed (and counted) only
while the count is below the limit. -/
def checkRateLimit (buckets : Buckets) (now : Int) (service : String)
    (limitPerMinute : Option Int) : Bool × Buckets :=
  match limitPerMinute with
  | none => (true, buckets)
  | some l =>
    if l ≤ 0 then (true, buckets)
    else
      match buckets service with
      | none => (true, bucketsSet buckets service ⟨1, now⟩)
      | some bucket =>
        if now - bucket.windowStart ≥ WINDOW_MS then
          (true, bucketsSet buckets service ⟨1, now⟩)
        else if (bucket.count : Int) ≥ l then (false, buckets)
        else (true, bucketsSet buckets service ⟨bucket.count + 1, bucket.windowStart⟩)

/-! ## WHATWG URL model

`auth.ts` builds the upstream URL with `new URL(body.path, service.base_url)`
and manipulates `targetUrl.searchParams`.  The model below captures the two
observables the claims are about — the resolved hostname and the decoded
query parameter list — for the inputs the handler can produce: an absolute
`https?://` base and a path that begins with `/` (guaranteed by
`validateRequest` before the URL is built).  Per the WHATWG standard, for a
special-scheme base a path starting with two slash characters (`/` or `\`)
is a protocol-relative reference: all leading slashes are skipped and an
authority (host) is parsed from the path itself; otherwise the host is
taken from the base. -/

def isSlashOrBackslash (c : Char) : Bool := c == '/' || c == '\\'

/-- Hostname of an authority component: drop the userinfo up to the last
`@`, stop at the port `:`, lower-case (ASCII). -/
def hostnameOfAuthority (auth : List Char) : String :=
  let afterUser := (splitList auth ['@']).getLastD []
  String.mk ((afterUser.takeWhile (· ≠ ':')).map charLower)

/-- The authority component at the front of a network-path reference:
skip all leading slash characters, then read up to `/`, `\`, `?` or `#`. -/
def authorityChars (l : List Char) : List Char :=
  (l.dropWhile isSlashOrBackslash).takeWhile
    (fun c => ¬ (c == '/' || c == '\\' || c == '?' || c == '#'))

/-- Hostname of an absolute URL string such as `service.base_url`. -/
def urlHostname (u : String) : String :=
  match splitList u.data [':', '/', '/'] with
  | _scheme :: afterScheme :: _ =>
    hostnameOfAuthority
      (afterScheme.takeWhile (fun c => ¬ (c == '/' || c == '\\' || c == '?' || c == '#')))
  | _ => ""

/-- Hostname of `new URL(path, base)` for a path starting with `/`: taken
from the path itself when the path begins with two slash characters,
otherwise from the base. -/
def resolvedHost (path : String) (baseHost : String) : String :=
  match path.data with
  | c1 :: c2 :: _ =>
    if isSlashOrBackslash c1 && isSlashOrBackslash c2 then
      hostnameOfAuthority (authorityChars path.data)
    else baseHost
  | _ => baseHost

/-- UTF-8 encoding of one character (1-4 bytes). -/
def utf8Encode (c : Char) : List Nat :=
  let n := c.toNat
  if n < 128 then [n]
  else if n < 2048 then [192 + n / 64, 128 + n % 64]
  else if n < 65536 then [224 + n / 4096, 128 + n / 64 % 64, 128 + n % 64]
  else [240 + n / 262144, 128 + n / 4096 % 64, 128 + n / 64 % 64, 128 + n % 64]

def replacementChar : Char := Char.ofNat 0xFFFD

/-- A code point as a `Char`, with the replacement character for
surrogates and out-of-range values. -/
def mkScalar (n : Nat) : Char :=
  if n < 0xD800 ∨ (0xE000 ≤ n ∧ n ≤ 0x10FFFF) then Char.ofNat n else replacementChar

def isContByte (b : Nat) : Bool := 128 ≤ b && b < 192

/-- Fuel-indexed UTF-8 decoder with replacement-character error recovery. -/
def utf8DecodeAux : Nat → List Nat → List Char
  | 0, _ => []
  | _ + 1, [] => []
  | f + 1, b :: rest =>
    if b < 128 then Char.ofNat (b % 128) :: utf8DecodeAux f rest
    else if b < 194 then replacementChar :: utf8DecodeAux f rest
    else if b < 224 then
      match rest with
      | b2 :: rest2 =>
        if isContByte b2 then
          mkScalar ((b - 192) * 64 + (b2 - 128)) :: utf8DecodeAux f rest2
        else replacementChar :: utf8DecodeAux f rest
      | [] => [replacementChar]
    else if b < 240 then
      match rest with
      | b2 :: b3 :: rest3 =>
        if isContByte b2 && isContByte b3 then
          mkScalar ((b - 224) * 4096 + (b2 - 128) * 64 + (b3 - 128)) ::
            utf8DecodeAux f rest3
        else replacementChar :: utf8DecodeAux f rest
      | _ => [replacementChar]
    else if b < 245 then
      match rest with
      | b2 :: b3 :: b4 :: rest4 =>
        if isContByte b2 && isContByte b3 && isContByte b4 then
          mkScalar ((b - 240) * 262144 + (b2 - 128) * 4096 + (b3 - 128) * 64 +
            (b4 - 128)) :: utf8DecodeAux f rest4
        else replacementChar :: utf8DecodeAux f rest
      | _ => [replacementChar]
    else replacementChar :: utf8DecodeAux f rest

/-- The term `+` decodes to space in `application/x-www-form-urlencoded`. -/
def plusToSpace (bs : List Nat) : List Nat :=
  bs.map (fun b => if b = 43 then 32 else b)

def hexByteVal (b : Nat) : Option Nat := hexDigitVal (Char.ofNat (b % 1114112))

/-- Percent-decoding at the byte level: `%XY` with two hex digits becomes
one byte; a malformed escape is kept verbatim. -/
def percentDecodeBytes : List Nat → List Nat
  | [] => []
  | 37 :: a :: b :: rest =>
    match hexByteVal a, hexByteVal b with
    | some ha, some hb => (ha * 16 + hb) :: percentDecodeBytes rest
    | _, _ => 37 :: percentDecodeBytes (a :: b :: rest)
  | b :: rest => b :: percentDecodeBytes rest

/-- Decode one `application/x-www-form-urlencoded` token. -/
def formDecode (part : List Char) : String :=
  let bs := percentDecodeBytes (plusToSpace ((part.map utf8Encode).flatten))
  String.mk (utf8DecodeAux bs.length bs)

/-- The query component of a path: between the first `?` and any `#`. -/
def queryChars (path : String) : List Char :=
  let beforeHash := path.data.takeWhile (· ≠ '#')
  match beforeHash.dropWhile (· ≠ '?') with
  | [] => []
  | _ :: rest => rest

/-- WHATWG `application/x-www-form-urlencoded` parsing of a query string
into the decoded name-value list `URL.searchParams` exposes. -/
def parseQuery (q : List Char) : List (String × String) :=
  (splitList q ['&']).filterMap (fun part =>
    if part.isEmpty then none
    else
      let nameL := part.takeWhile (· ≠ '=')
      let valL :=
        match part.dropWhile (· ≠ '=') with
        | [] => ([] : List Char)
        | _ :: rest => rest
      some (formDecode nameL, formDecode valL))

/-- The term `URLSearchParams.set(k, v)`: overwrite the value of the first pair
named `k` and delete the other pairs named `k`; append if `k` is absent. -/
def spSet : List (String × String) → String → String → List (String × String)
  | [], k, v => [(k, v)]
  | kv :: rest, k, v =>
    if kv.1 == k then (k, v) :: rest.filter (fun kv2 => !(kv2.1 == k))
    else kv :: spSet rest k v

/-- The observables of the `URL` object the handler builds. -/
structure URLModel where
  hostname : String
  searchParams : List (String × String)
deriving DecidableEq, Repr

/-- The term `new URL(path, base)` for the guarded inputs (path starts with `/`). -/
def newURL (path base : String) : URLModel :=
  { hostname := resolvedHost path (urlHostname base)
    searchParams := parseQuery (queryChars path) }

example : urlHostname "https://api.openai.com/v1" = "api.openai.com" := by decide
example : (newURL "/v1/chat" "https://api.openai.com/v1").hostname = "api.openai.com" := by
  decide
example : (newURL "//evil.com/x" "https://api.openai.com/v1").hostname = "evil.com" := by
  decide
example : (newURL "/p?a=1&key=mine" "https://h.example").searchParams =
    [("a", "1"), ("key", "mine")] := by decide

/-! ## Secret resolution (`auth.ts`)

`resolveSecret` renders the credential with
`service.auth.template.replace("${SECRET}", raw)`.  JavaScript
`String.prototype.replace` with a string pattern replaces the FIRST
occurrence only, and applies `GetSubstitution` to the replacement string:
`$$` becomes `$`, `$&` the matched text, a dollar followed by a backtick
the text before the match, `$` followed by U+0027 the text after the
match; any other `$` sequence is passed through verbatim (there are no
capture groups for a string pattern). -/

def backquoteChar : Char := Char.ofNat 96

def singleQuoteChar : Char := Char.ofNat 39

/-- The term `GetSubstitution` over the replacement string, for a string pattern
(no capture groups). -/
def substDollar (matched before after : List Char) : List Char → List Char
  | [] => []
  | c :: rest =>
    if c == '$' then
      match rest with
      | [] => ['$']
      | c2 :: rest2 =>
        if c2 == '$' then '$' :: substDollar matched before after rest2
        else if c2 == '&' then matched ++ substDollar matched before after rest2
        else if c2 == backquoteChar then before ++ substDollar matched before after rest2
        else if c2 == singleQuoteChar then after ++ substDollar matched before after rest2
        else '$' :: substDollar matched before after (c2 :: rest2)
    else c :: substDollar matched before after rest

/-- Worker for `replace`: `acc` is the reversed already-scanned prefix. -/
def replaceFirstAux (pat rep : List Char) : List Char → List Char → List Char
  | acc, [] =>
    if startsWithL pat [] then acc.reverse ++ substDollar pat acc.reverse [] rep
    else acc.reverse
  | acc, c :: rest =>
    if startsWithL pat (c :: rest) then
      acc.reverse ++
        substDollar pat acc.reverse (List.drop pat.length (c :: rest)) rep ++
        List.drop pat.length (c :: rest)
    else replaceFirstAux pat rep (c :: acc) rest

/-- The term `s.replace(pat, rep)` with string arguments: first occurrence only,
`GetSubstitution` applied to `rep`. -/
def jsReplace (s pat rep : String) : String :=
  String.mk (replaceFirstAux pat.data rep.data [] s.data)

example : jsReplace "Bearer ${SECRET}" "${SECRET}" "tok-1" = "Bearer tok-1" := by decide
example : jsReplace "${SECRET}${SECRET}" "${SECRET}" "x" = "x${SECRET}" := by decide
example : jsReplace "Bearer ${SECRET}" "${SECRET}" "a$&b" = "Bearer a${SECRET}b" := by
  decide
example : jsReplace "Bearer ${SECRET}" "${SECRET}" "a$$b" = "Bearer a$b" := by decide

/-- The term `resolveSecret` from `auth.ts`: read the environment variable named by
the service (`none` and the empty string are both falsy and yield `null`)
and render it into the auth template. -/
def resolveSecret (service : ServiceConfig) (env : String → Option String) :
    Option String :=
  match env service.secret_env with
  | none => none
  | some raw =>
    if raw = "" then none
    else some (jsReplace service.auth.template "${SECRET}" raw)

/-! ## The proxy handler (`auth.ts`, `createProxyHandler`)

The returned async handler is modelled as a function of its inputs: the
service table, the global allowlists, the process environment, the request
data, the rate-bucket state together with the current clock value, and an
oracle giving the outcome of the single upstream `fetch` (success with a
status, or a thrown error message), its observed latency and the log
timestamp.  The result records the HTTP decision, the outgoing URL and
headers when an upstream call is made, the emitted structured log line,
and the final bucket state. -/

structure UpstreamResp where
  status : Nat
  contentType : Option String := none
deriving DecidableEq, Repr

inductive FetchOutcome
  | success (resp : UpstreamResp)
  | failure (message : String)
deriving DecidableEq, Repr

structure Oracle where
  fetch : FetchOutcome
  latencyMs : Int
  timestamp : String
deriving DecidableEq, Repr

/-- The fields of the structured log line `console.log(JSON.stringify(...))`
emits: exactly one of `status` / `error` is present. -/
structure LogEntry where
  agent : String
  service : String
  method : String
  path : String
  status : Option Nat
  error : Option String
  latency_ms : Int
  timestamp : String
deriving DecidableEq, Repr

def digitChar (n : Nat) : Char := Char.ofNat (48 + n % 10)

def natDigitsAux : Nat → Nat → List Char
  | 0, _ => []
  | fuel + 1, n =>
    if n < 10 then [digitChar n]
    else natDigitsAux fuel (n / 10) ++ [digitChar (n % 10)]

def natToStr (n : Nat) : String := String.mk (natDigitsAux (n + 1) n)

def intToStr (i : Int) : String :=
  if i < 0 then "-" ++ natToStr i.natAbs else natToStr i.toNat

/-- The lower-case hex digit for a value below 16. -/
def lowerHexDigit (n : Nat) : Char :=
  if n % 16 < 10 then Char.ofNat (48 + n % 16) else Char.ofNat (87 + n % 16)

/-- JSON string escaping as `JSON.stringify` performs it. -/
def jsonEscapeChar (c : Char) : List Char :=
  if c == '"' then ['\\', '"']
  else if c == '\\' then ['\\', '\\']
  else if c == Char.ofNat 8 then ['\\', 'b']
  else if c == Char.ofNat 9 then ['\\', 't']
  else if c == Char.ofNat 10 then ['\\', 'n']
  else if c == Char.ofNat 12 then ['\\', 'f']
  else if c == Char.ofNat 13 then ['\\', 'r']
  else if c.toNat < 32 then
    '\\' :: 'u' :: '0' :: '0' ::
      [lowerHexDigit (c.toNat / 16), lowerHexDigit (c.toNat % 16)]
  else [c]

def jsonStr (s : String) : String :=
  "\"" ++ String.mk ((s.data.map jsonEscapeChar).flatten) ++ "\""

/-- The term `JSON.stringify` of the log object, fields in insertion order. -/
def renderLog (e : LogEntry) : String :=
  "\x7b\"agent\":" ++ jsonStr e.agent ++
  ",\"service\":" ++ jsonStr e.service ++
  ",\"method\":" ++ jsonStr e.method ++
  ",\"path\":" ++ jsonStr e.path ++
  (match e.status with
   | some st => ",\"status\":" ++ natToStr st
   | none => "") ++
  (match e.error with
   | some msg => ",\"error\":" ++ jsonStr msg
   | none => "") ++
  ",\"latency_ms\":" ++ intToStr e.latency_ms ++
  ",\"timestamp\":" ++ jsonStr e.timestamp ++ "\x7d"

/-- The service table `Record<string, ServiceConfig>` as an association
list; `services[name]` is the first (unique) binding. -/
def jsRecordGet (services : List (String × ServiceConfig)) (k : String) :
    Option ServiceConfig :=
  (services.find? (fun kv => kv.1 == k)).map (fun kv => kv.2)

def DEFAULT_TIMEOUT_MS : Int := 30000

/-- The term `agent?.name ?? "legacy"`. -/
def agentNameOf : Option ResolvedAgent → String
  | some a => a.name
  | none => "legacy"

/-- The step `if (agent && !agent.config.allowed_services.includes(serviceName)))`. -/
def agentServiceCheck (agent : Option ResolvedAgent) (serviceName : String) :
    Option String :=
  match agent with
  | some a =>
    if ¬ a.config.allowed_services.contains serviceName then
      some ("Agent \"" ++ a.name ++ "\" is not authorized for service \"" ++
        serviceName ++ "\"")
    else none
  | none => none

/-- The step `if (agent) { checkAgentIpAllowlist(req, agent) ... }`. -/
def agentIpStage (ctx : ReqCtx) : Option String :=
  match ctx.agent with
  | some a => checkAgentIpAllowlist ctx a
  | none => none

/-- The step `if (agent && agent.config.rate_limit_per_minute) { checkRateLimit ... }`:
the guard tests JavaScript truthiness, so an absent or zero limit skips
the check entirely. -/
def agentRateStage (agent : Option ResolvedAgent) (b : Buckets) (now : Int) :
    Bool × Buckets :=
  match agent with
  | none => (true, b)
  | some a =>
    match a.config.rate_limit_per_minute with
    | none => (true, b)
    | some l =>
      if l = 0 then (true, b)
      else checkRateLimit b now ("agent:" ++ a.name) (some l)

/-- Rendering of `${limit}` inside the 429 messages (JavaScript renders a
missing field as the string `undefined`; unreachable, since a 429 implies
a positive configured limit). -/
def limitStr : Option Int → String
  | none => "undefined"
  | some l => intToStr l

def agentLimitOf : Option ResolvedAgent → Option Int
  | some a => a.config.rate_limit_per_minute
  | none => none

/-- The term `typeof body.body === "string" ? body.body : JSON.stringify(body.body)`. -/
def stringifyBody : BodyVal → String
  | .str s => s
  | .jsonValue j => j

/-- Everything observable about one handled request. -/
structure HandlerResult where
  status : Nat
  error : Option String
  targetUrl : Option URLModel
  outHeaders : Option (List (String × String))
  outBody : Option String
  log : Option LogEntry
  buckets : Buckets

/-- A terminal decision made before any upstream call. -/
def rejectWith (status : Nat) (msg : String) (b : Buckets) : HandlerResult :=
  { status := status, error := some msg, targetUrl := none, outHeaders := none
    outBody := none, log := none, buckets := b }

/-- The handler `createProxyHandler(services, globalConfig)` returns,
stage by stage in source order: service lookup (404), agent service
authorization (403), service/global IP+Origin allowlists (403), agent IP
allowlist (403), request shape validation (400), service rate limit (429),
agent rate limit (429), secret resolution (500), then URL construction,
query/header credential injection, header sanitisation, and the upstream
call with its structured log line and 502/504 failure classification. -/
def proxyHandler (services : List (String × ServiceConfig)) (g : GlobalConfig)
    (env : String → Option String) (ctx : ReqCtx) (oracle : Oracle)
    (b0 : Buckets) (now : Int) : HandlerResult :=
  match jsRecordGet services ctx.serviceName with
  | none => rejectWith 404 ("Unknown service: \"" ++ ctx.serviceName ++ "\"") b0
  | some service =>
  match agentServiceCheck ctx.agent ctx.serviceName with
  | some e => rejectWith 403 e b0
  | none =>
  match checkAllowlist ctx service g with
  | some e => rejectWith 403 e b0
  | none =>
  match agentIpStage ctx with
  | some e => rejectWith 403 e b0
  | none =>
  match validateRequest service ctx.body with
  | some e => rejectWith 400 e b0
  | none =>
  let svcRate := checkRateLimit b0 now ctx.serviceName service.rate_limit_per_minute
  if ¬ svcRate.1 then
    rejectWith 429 ("Rate limit exceeded for service \"" ++ ctx.serviceName ++
      "\". Limit: " ++ limitStr service.rate_limit_per_minute ++ "/min") svcRate.2
  else
  let agentRate := agentRateStage ctx.agent svcRate.2 now
  if ¬ agentRate.1 then
    rejectWith 429 ("Rate limit exceeded for agent \"" ++ agentNameOf ctx.agent ++
      "\". Limit: " ++ limitStr (agentLimitOf ctx.agent) ++ "/min") agentRate.2
  else
  match resolveSecret service env with
  | none =>
    rejectWith 500 ("Server misconfigured: env var \"" ++ service.secret_env ++
      "\" is not set") agentRate.2
  | some secretValue =>
    let targetUrl0 := newURL ctx.body.path service.base_url
    let targetUrl :=
      match service.auth with
      | .query qp _ =>
        { targetUrl0 with searchParams := spSet targetUrl0.searchParams qp secretValue }
      | .header _ _ => targetUrl0
    let headers0 := sanitizeHeaders ctx.body.headers
    let headers :=
      match service.auth with
      | .header hn _ => objSet headers0 hn secretValue
      | .query _ _ => headers0
    let method := jsToUpper ctx.body.method
    let timeout := match service.timeout_ms with
      | some t => t
      | none => DEFAULT_TIMEOUT_MS
    let outBody :=
      match ctx.body.body with
      | some bv =>
        if method = "GET" ∨ method = "HEAD" then none else some (stringifyBody bv)
      | none => none
    let agentName := agentNameOf ctx.agent
    match oracle.fetch with
    | .success resp =>
      { status := resp.status, error := none, targetUrl := some targetUrl
        outHeaders := some headers, outBody := outBody
        log := some { agent := agentName, service := ctx.serviceName, method := method
                      path := ctx.body.path, status := some resp.status, error := none
                      latency_ms := oracle.latencyMs, timestamp := oracle.timestamp }
        buckets := agentRate.2 }
    | .failure message =>
      let le : LogEntry :=
        { agent := agentName, service := ctx.serviceName, method := method
          path := ctx.body.path, status := none, error := some message
          latency_ms := oracle.latencyMs, timestamp := oracle.timestamp }
      if jsIncludes message "timed out" || jsIncludes message "timeout" then
        { status := 504
          error := some ("Upstream request timed out (" ++ intToStr timeout ++ "ms)")
          targetUrl := some targetUrl, outHeaders := some headers, outBody := outBody
          log := some le, buckets := agentRate.2 }
      else
        { status := 502
          error := some ("Upstream request failed: " ++ message)
          targetUrl := some targetUrl, outHeaders := some headers, outBody := outBody
          log := some le, buckets := agentRate.2 }

/-! ## Auxiliary definitions used by the claim statements -/

/-- Reading a property of the outgoing headers object. -/
def jsGetHeader (l : List (String × String)) (k : String) : Option String :=
  (l.find? (fun kv => kv.1 == k)).map (fun kv => kv.2)

/-- A sequence of `checkRateLimit` calls against one key, at the given
clock values, threading the bucket state; returns the list of verdicts
and the final state. -/
def rateCalls (key : String) (lim : Option Int) : Buckets → List Int → List Bool × Buckets
  | b, [] => ([], b)
  | b, t :: ts =>
    let r := checkRateLimit b t key lim
    let rest := rateCalls key lim r.2 ts
    (r.1 :: rest.1, rest.2)

/-- The admission decision of the handler, written as the ordered
short-circuit sequence the source actually performs: service lookup,
agent service authorization, service/global IP+Origin allowlists (IP
first, Origin second, both inside `checkAllowlist`), then the agent IP
allowlist.  `some (status, message)` is the first failure. -/
def admissionDecision (services : List (String × ServiceConfig)) (g : GlobalConfig)
    (ctx : ReqCtx) : Option (Nat × String) :=
  match jsRecordGet services ctx.serviceName with
  | none => some (404, "Unknown service: \"" ++ ctx.serviceName ++ "\"")
  | some service =>
    match agentServiceCheck ctx.agent ctx.serviceName with
    | some e => some (403, e)
    | none =>
      match checkAllowlist ctx service g with
      | some e => some (403, e)
      | none =>
        match agentIpStage ctx with
        | some e => some (403, e)
        | none => none

/-- Modelled from the spec words (§4.5): substituting the single
`${SECRET}` placeholder by "simple substring replace" with "no escaping":
the first occurrence of the pattern is replaced by the replacement text
taken literally.  Compared against `jsReplace`, which is what the source
line `template.replace("${SECRET}", raw)` actually does. -/
def plainReplaceAux (pat rep : List Char) : List Char → List Char → List Char
  | acc, [] =>
    if startsWithL pat [] then acc.reverse ++ rep else acc.reverse
  | acc, c :: rest =>
    if startsWithL pat (c :: rest) then
      acc.reverse ++ rep ++ List.drop pat.length (c :: rest)
    else plainReplaceAux pat rep (c :: acc) rest

/-- Modelled from the spec words (§4.5): plain first-occurrence substring
substitution, no `$`-escape processing. -/
def specPlainSubst (s pat rep : String) : String :=
  String.mk (plainReplaceAux pat.data rep.data [] s.data)

/-! ## Concrete fixtures for the counterexamples and witnesses -/

def fxNoBuckets : Buckets := fun _ => none

def fxEnvNone : String → Option String := fun _ => none

def fxOracleOk : Oracle :=
  { fetch := .success { status := 200 }, latencyMs := 5, timestamp := "2026-01-01T00:00:00Z" }

/-- A plain header-auth service with no optional restrictions. -/
def fxSvcPlain : ServiceConfig :=
  { base_url := "https://api.openai.com/v1", allowed_hosts := ["api.openai.com"]
    auth := .header "Authorization" "Bearer ${SECRET}", secret_env := "OPENAI_KEY" }

def fxEnvOpenai : String → Option String :=
  fun k => if k = "OPENAI_KEY" then some "sk-test-1" else none

/-- Environment whose secret value contains a `$&` escape. -/
def fxEnvDollar : String → Option String :=
  fun k => if k = "OPENAI_KEY" then some "x$&y" else none

/-- A request whose path is a protocol-relative URL. -/
def fxCtxRelay : ReqCtx :=
  { serviceName := "openai", body := { method := "GET", path := "//evil.com/x" } }

/-- A plain request, with a caller attempt at the credential header. -/
def fxCtxPlain : ReqCtx :=
  { serviceName := "openai"
    body := { method := "GET", path := "/x"
              headers := some [("X-Custom", "1"), ("Authorization", "Bearer attacker")] } }

/-- A service carrying an Origin allowlist. -/
def fxSvcOrigin : ServiceConfig :=
  { base_url := "https://api.openai.com/v1", allowed_hosts := ["api.openai.com"]
    auth := .header "Authorization" "Bearer ${SECRET}", secret_env := "OPENAI_KEY"
    allowed_origins := some ["https://ok.example"] }

/-- An agent with its own IP allowlist. -/
def fxAgentBob : ResolvedAgent :=
  { name := "bob"
    config := { token := "agt_1", allowed_services := ["openai"]
                allowed_ips := some ["10.0.0.1"] } }

/-- A request that fails both the Origin allowlist (header
`https://evil.example` not allowed) and agent bob's IP allowlist (client
address `1.2.3.4`). -/
def fxCtxBothFail : ReqCtx :=
  { serviceName := "openai", clientIp := some "1.2.3.4"
    originHeader := some "https://evil.example", agent := some fxAgentBob
    body := { method := "GET", path := "/x" } }

/-- A query-auth service. -/
def fxSvcQuery : ServiceConfig :=
  { base_url := "https://h.example/v1", allowed_hosts := ["h.example"]
    auth := .query "api_key" "${SECRET}", secret_env := "QKEY" }

def fxEnvQuery : String → Option String :=
  fun k => if k = "QKEY" then some "real-secret" else none

/-- A request whose caller path already carries the credential query
parameter, twice. -/
def fxCtxQuery : ReqCtx :=
  { serviceName := "q"
    body := { method := "GET", path := "/p?api_key=mine&z=1&api_key=2" } }

/-- Header list used by the C6 witness. -/
def fxHdrs : List (String × String) :=
  [("AUTHORIZATION", "Bearer attacker"), ("Cookie", "sid=1"), ("X-Custom", "1")]

/-- A service with a per-service rate limit of 1/min. -/
def fxSvcLimited : ServiceConfig :=
  { base_url := "https://api.openai.com/v1", allowed_hosts := ["api.openai.com"]
    auth := .header "Authorization" "Bearer ${SECRET}", secret_env := "OPENAI_KEY"
    rate_limit_per_minute := some 1 }

/-- An agent with a per-agent rate limit and no IP allowlist. -/
def fxAgentCarol : ResolvedAgent :=
  { name := "carol"
    config := { token := "agt_2", allowed_services := ["openai"]
                rate_limit_per_minute := some 5 } }

def fxCtxLimited : ReqCtx :=
  { serviceName := "openai", agent := some fxAgentCarol
    body := { method := "GET", path := "/x" } }

/-- A bucket map in which service `openai` has already used its window. -/
def fxBucketsFull : Buckets :=
  fun k => if k = "openai" then some ⟨1, 0⟩ else none

/-! ## Proofs -/

theorem objSet_of_keys_ne (acc : List (String × String)) (k v : String)
    (h : ∀ kv ∈ acc, kv.1 ≠ k) : objSet acc k v = acc ++ [(k, v)] := by
  unfold objSet
  rw [if_neg]
  simp only [List.any_eq_true, beq_iff_eq, not_exists]
  rintro kv ⟨hmem, heq⟩
  exact h kv hmem heq

theorem sanitizeHeaders_foldl (l : List (String × String)) :
    ∀ acc : List (String × String), (l.map Prod.fst).Nodup →
    (∀ kv ∈ acc, ∀ kv2 ∈ l, kv.1 ≠ kv2.1) →
    (l.foldl
      (fun clean kv =>
        if STRIPPED_HEADERS.contains (jsToLower kv.1) then clean
        else objSet clean kv.1 kv.2)
      acc) =
      acc ++ l.filter (fun kv => !(STRIPPED_HEADERS.contains (jsToLower kv.1))) := by
  induction l with
  | nil => intro acc _ _; simp
  | cons kv rest ih =>
    intro acc hnd hdis
    have hnd' : (rest.map Prod.fst).Nodup := by
      simpa using (List.nodup_cons.mp (by simpa using hnd)).2
    have hnotin : kv.1 ∉ rest.map Prod.fst :=
      (List.nodup_cons.mp (by simpa using hnd)).1
    simp only [List.foldl_cons]
    by_cases hst : STRIPPED_HEADERS.contains (jsToLower kv.1)
    · rw [if_pos hst,
        ih acc hnd' (fun kv' h' kv2 h2 => hdis kv' h' kv2 (List.mem_cons_of_mem _ h2))]
      have hmem : jsToLower kv.1 ∈ STRIPPED_HEADERS := by simpa using hst
      simp [List.filter_cons, hmem]
    · rw [if_neg hst]
      have hobj : objSet acc kv.1 kv.2 = acc ++ [(kv.1, kv.2)] :=
        objSet_of_keys_ne acc kv.1 kv.2
          (fun kv' h' => hdis kv' h' kv (List.mem_cons_self _ _))
      have heta : (kv.1, kv.2) = kv := rfl
      rw [hobj, heta, ih (acc ++ [kv]) hnd' ?dis]
      · have hmem : jsToLower kv.1 ∉ STRIPPED_HEADERS := by simpa using hst
        simp [List.filter_cons, hmem, List.append_assoc]
      case dis =>
        intro kv' h' kv2 h2
        rcases List.mem_append.mp h' with h3 | h3
        · exact hdis kv' h3 kv2 (List.mem_cons_of_mem _ h2)
        · have : kv' = kv := by simpa using h3
          subst this
          intro heq
          exact hnotin (heq ▸ List.mem_map_of_mem Prod.fst h2)

/-- C6: for every caller-supplied header map (unique keys, as JavaScript
object entries are), `sanitizeHeaders` returns exactly the entries whose
lower-cased key is not in the stripped set, each with key and value
unchanged; in particular no stripped header survives, and every
non-stripped entry survives unchanged. -/
theorem c6_sanitize_headers_strips (l : List (String × String))
    (hnd : (l.map Prod.fst).Nodup) :
    sanitizeHeaders (some l) =
      l.filter (fun kv => !(STRIPPED_HEADERS.contains (jsToLower kv.1))) ∧
    (∀ kv ∈ sanitizeHeaders (some l),
        STRIPPED_HEADERS.contains (jsToLower kv.1) = false) ∧
    (∀ kv ∈ l, STRIPPED_HEADERS.contains (jsToLower kv.1) = false →
        kv ∈ sanitizeHeaders (some l)) := by
  have hmain : sanitizeHeaders (some l) =
      l.filter (fun kv => !(STRIPPED_HEADERS.contains (jsToLower kv.1))) := by
    unfold sanitizeHeaders
    simpa using sanitizeHeaders_foldl l [] hnd (by simp)
  refine ⟨hmain, ?_, ?_⟩
  · intro kv hkv
    rw [hmain] at hkv
    have := (List.mem_filter.mp hkv).2
    simpa using this
  · intro kv hkv hns
    rw [hmain]
    exact List.mem_filter.mpr ⟨hkv, by simpa using hns⟩

/-- Witness for C6 at a concrete header map: upper-case `AUTHORIZATION`
and `Cookie` are stripped, the custom header survives unchanged. -/
theorem c6_witness : sanitizeHeaders (some fxHdrs) = [("X-Custom", "1")] := by
  have h := c6_sanitize_headers_strips fxHdrs (by decide)
  rw [h.1]
  decide

theorem rateCalls_inwindow (key : String) (n : Nat) (t0 : Int) :
    ∀ (ts : List Int) (b : Buckets) (c : Nat),
      1 ≤ c → b key = some ⟨c, t0⟩ →
      (∀ t ∈ ts, t0 ≤ t ∧ t - t0 < 60000) → 1 ≤ n →
      (rateCalls key (some (n : Int)) b ts).1 =
        (List.range ts.length).map (fun i => decide (c + i < n)) ∧
      (rateCalls key (some (n : Int)) b ts).2 key =
        some ⟨min (c + ts.length) (max c n), t0⟩ := by
  intro ts
  induction ts with
  | nil =>
    intro b c hc hb _ _
    refine ⟨by simp [rateCalls], ?_⟩
    simp only [rateCalls, hb, List.length_nil]
    rw [show min (c + 0) (max c n) = c by omega]
  | cons t ts ih =>
    intro b c hc hb hw hn
    have hcond := hw t (List.mem_cons_self _ _)
    by_cases hcl : (n : Int) ≤ (c : Int)
    · have hstep : checkRateLimit b t key (some (n : Int)) = (false, b) := by
        simp only [checkRateLimit, WINDOW_MS, hb]
        rw [if_neg (by omega), if_neg (by omega), if_pos (by omega)]
      have htl := ih b c hc hb (fun t' ht' => hw t' (List.mem_cons_of_mem _ ht')) hn
      constructor
      · simp only [rateCalls, hstep, htl.1, List.length_cons,
          List.range_succ_eq_map, List.map_cons, List.map_map]
        congr 1
        · simp
          omega
        · have e1 : (List.range ts.length).map (fun i => decide (c + i < n)) =
              List.replicate ts.length false := by
            apply List.eq_replicate_iff.2
            refine ⟨by simp, ?_⟩
            intro x hx
            rcases List.mem_map.mp hx with ⟨i, _, rfl⟩
            simp
            omega
          have e2 : (List.range ts.length).map
                ((fun i => decide (c + i < n)) ∘ Nat.succ) =
              List.replicate ts.length false := by
            apply List.eq_replicate_iff.2
            refine ⟨by simp, ?_⟩
            intro x hx
            rcases List.mem_map.mp hx with ⟨i, _, rfl⟩
            simp
            omega
          rw [e1, e2]
      · simp only [rateCalls, hstep, htl.2, List.length_cons]
        rw [show min (c + ts.length) (max c n) = min (c + (ts.length + 1)) (max c n) by omega]
    · have hstep : checkRateLimit b t key (some (n : Int)) =
          (true, bucketsSet b key ⟨c + 1, t0⟩) := by
        simp only [checkRateLimit, WINDOW_MS, hb]
        rw [if_neg (by omega), if_neg (by omega), if_neg (by omega)]
      have hb' : bucketsSet b key ⟨c + 1, t0⟩ key = some ⟨c + 1, t0⟩ := by
        simp [bucketsSet]
      have htl := ih (bucketsSet b key ⟨c + 1, t0⟩) (c + 1) (by omega) hb'
        (fun t' ht' => hw t' (List.mem_cons_of_mem _ ht')) hn
      constructor
      · simp only [rateCalls, hstep, htl.1, List.length_cons,
          List.range_succ_eq_map, List.map_cons, List.map_map]
        congr 1
        · simp
          omega
        · apply List.map_congr_left
          intro i _
          simp only [Function.comp_apply, Nat.succ_eq_add_one]
          rw [show c + 1 + i = c + (i + 1) by omega]
      · simp only [rateCalls, hstep, htl.2, List.length_cons]
        rw [show min (c + 1 + ts.length) (max (c + 1) n) =
            min (c + (ts.length + 1)) (max c n) by omega]

/-- C4: fixed-window rate limiting.  A missing or non-positive limit
always allows and creates no bucket; with a positive limit, a missing or
expired (≥ 60000 ms old) bucket starts a new window with count 1 and
allows; an in-window bucket allows and increments while its count is
below the limit and denies without changing any state once the count has
reached the limit; consequently, for limit `N ≥ 1`, a run of `N + 1`
calls starting at the window opening, all within 60000 ms of it, returns
`true` exactly `N` times followed by one `false` (a later call that is
≥ 60000 ms after the window start is covered by the expired-bucket case:
it resets the window and allows). -/
theorem c4_rate_limit_fixed_window (b : Buckets) (now : Int) (key : String) :
    (checkRateLimit b now key none = (true, b)) ∧
    (∀ l : Int, l ≤ 0 → checkRateLimit b now key (some l) = (true, b)) ∧
    (∀ l : Int, 0 < l → b key = none →
      checkRateLimit b now key (some l) = (true, bucketsSet b key ⟨1, now⟩)) ∧
    (∀ l : Int, 0 < l → ∀ bk : Bucket, b key = some bk →
      now - bk.windowStart ≥ 60000 →
      checkRateLimit b now key (some l) = (true, bucketsSet b key ⟨1, now⟩)) ∧
    (∀ l : Int, 0 < l → ∀ bk : Bucket, b key = some bk →
      now - bk.windowStart < 60000 → (bk.count : Int) < l →
      checkRateLimit b now key (some l) =
        (true, bucketsSet b key ⟨bk.count + 1, bk.windowStart⟩)) ∧
    (∀ l : Int, 0 < l → ∀ bk : Bucket, b key = some bk →
      now - bk.windowStart < 60000 → l ≤ (bk.count : Int) →
      checkRateLimit b now key (some l) = (false, b)) ∧
    (∀ n : Nat, 1 ≤ n → ∀ rest : List Int, rest.length = n → b key = none →
      (∀ t ∈ rest, now ≤ t ∧ t - now < 60000) →
      (rateCalls key (some (n : Int)) b (now :: rest)).1 =
        List.replicate n true ++ [false] ∧
      (rateCalls key (some (n : Int)) b (now :: rest)).2 key = some ⟨n, now⟩) := by
  refine ⟨rfl, ?_, ?_, ?_, ?_, ?_, ?_⟩
  · intro l hl
    simp only [checkRateLimit]
    rw [if_pos hl]
  · intro l hl hk
    simp only [checkRateLimit, hk]
    rw [if_neg (by omega)]
  · intro l hl bk hk hexp
    simp only [checkRateLimit, WINDOW_MS, hk]
    rw [if_neg (by omega), if_pos (by omega)]
  · intro l hl bk hk hin hlt
    simp only [checkRateLimit, WINDOW_MS, hk]
    rw [if_neg (by omega), if_neg (by omega), if_neg (by omega)]
  · intro l hl bk hk hin hge
    simp only [checkRateLimit, WINDOW_MS, hk]
    rw [if_neg (by omega), if_neg (by omega), if_pos (by omega)]
  · intro n hn rest hlen hk hw
    have hstep : checkRateLimit b now key (some (n : Int)) =
        (true, bucketsSet b key ⟨1, now⟩) := by
      simp only [checkRateLimit, hk]
      rw [if_neg (by omega)]
    have hb' : bucketsSet b key ⟨1, now⟩ key = some ⟨1, now⟩ := by
      simp [bucketsSet]
    have htl := rateCalls_inwindow key n now rest (bucketsSet b key ⟨1, now⟩) 1
      (by omega) hb' hw hn
    obtain ⟨m, rfl⟩ : ∃ m, n = m + 1 := ⟨n - 1, by omega⟩
    constructor
    · simp only [rateCalls, hstep, htl.1, hlen]
      have hrng : (List.range (m + 1)).map (fun i => decide (1 + i < m + 1)) =
          List.replicate m true ++ [false] := by
        rw [List.range_succ, List.map_append]
        have e1 : (List.range m).map (fun i => decide (1 + i < m + 1)) =
            List.replicate m true := by
          apply List.eq_replicate_iff.2
          refine ⟨by simp, ?_⟩
          intro x hx
          rcases List.mem_map.mp hx with ⟨i, hi, rfl⟩
          have : i < m := List.mem_range.mp hi
          simp
          omega
        rw [e1]
        simp
        omega
      rw [hrng]
      simp [List.replicate_succ]
    · simp only [rateCalls, hstep, htl.2, hlen]
      rw [show min (1 + (m + 1)) (max 1 (m + 1)) = m + 1 by omega]

/-- Witness for C4: with limit 2 and an empty bucket map, three calls at
0 ms, 1 ms and 2 ms yield allow, allow, deny, and leave a bucket with
count 2 and window start 0. -/
theorem c4_witness :
    (rateCalls "svc" (some ((2 : Nat) : Int)) fxNoBuckets [0, 1, 2]).1 =
      [true, true, false] ∧
    (rateCalls "svc" (some ((2 : Nat) : Int)) fxNoBuckets [0, 1, 2]).2 "svc" =
      some ⟨2, 0⟩ := by
  have h := (c4_rate_limit_fixed_window fxNoBuckets 0 "svc").2.2.2.2.2.2
    2 (by omega) [1, 2] (by decide) rfl (by decide)
  exact ⟨h.1.trans (by decide), h.2⟩

theorem checkRateLimit_deny_state (b : Buckets) (now : Int) (key : String)
    (lim : Option Int) (b' : Buckets)
    (h : checkRateLimit b now key lim = (false, b')) : b' = b := by
  cases lim with
  | none =>
    simp only [checkRateLimit] at h
    have := congrArg Prod.fst h
    simp at this
  | some l =>
    simp only [checkRateLimit] at h
    split at h
    · have := congrArg Prod.fst h
      simp at this
    · split at h
      · have := congrArg Prod.fst h
        simp at this
      · split at h
        · have := congrArg Prod.fst h
          simp at this
        · split at h
          · have := congrArg Prod.snd h
            simpa using this.symm
          · have := congrArg Prod.fst h
            simp at this

theorem admission_none_parts (services : List (String × ServiceConfig))
    (g : GlobalConfig) (ctx : ReqCtx) (svc : ServiceConfig)
    (hsvc : jsRecordGet services ctx.serviceName = some svc)
    (hadm : admissionDecision services g ctx = none) :
    agentServiceCheck ctx.agent ctx.serviceName = none ∧
    checkAllowlist ctx svc g = none ∧
    agentIpStage ctx = none := by
  unfold admissionDecision at hadm
  rw [hsvc] at hadm
  dsimp only at hadm
  cases h1 : agentServiceCheck ctx.agent ctx.serviceName with
  | some e => rw [h1] at hadm; simp at hadm
  | none =>
    rw [h1] at hadm
    dsimp only at hadm
    cases h2 : checkAllowlist ctx svc g with
    | some e => rw [h2] at hadm; simp at hadm
    | none =>
      rw [h2] at hadm
      dsimp only at hadm
      cases h3 : agentIpStage ctx with
      | some e => rw [h3] at hadm; simp at hadm
      | none => exact ⟨rfl, rfl, rfl⟩

/-- C8: the per-service rate check runs (and, when it passes, charges its
bucket) before the per-agent rate check; when the service check denies,
the handler answers 429 with the service message and leaves the entire
bucket state — in particular any `agent:<name>` bucket — exactly as it
was; when the service check passes with new state `b1`, the final bucket
state is whatever the agent rate stage produces from `b1`. -/
theorem c8_service_denial_preserves_agent_bucket
    (services : List (String × ServiceConfig)) (g : GlobalConfig)
    (env : String → Option String) (ctx : ReqCtx) (oracle : Oracle)
    (b0 : Buckets) (now : Int) (svc : ServiceConfig)
    (hsvc : jsRecordGet services ctx.serviceName = some svc)
    (hadm : admissionDecision services g ctx = none)
    (hval : validateRequest svc ctx.body = none) :
    ((checkRateLimit b0 now ctx.serviceName svc.rate_limit_per_minute).1 = false →
      proxyHandler services g env ctx oracle b0 now =
        rejectWith 429 ("Rate limit exceeded for service \"" ++ ctx.serviceName ++
          "\". Limit: " ++ limitStr svc.rate_limit_per_minute ++ "/min") b0 ∧
      (∀ a : ResolvedAgent, ctx.agent = some a →
        (proxyHandler services g env ctx oracle b0 now).buckets ("agent:" ++ a.name) =
          b0 ("agent:" ++ a.name))) ∧
    (∀ b1 : Buckets,
      checkRateLimit b0 now ctx.serviceName svc.rate_limit_per_minute = (true, b1) →
      (proxyHandler services g env ctx oracle b0 now).buckets =
        (agentRateStage ctx.agent b1 now).2) := by
  obtain ⟨h1, h2, h3⟩ := admission_none_parts services g ctx svc hsvc hadm
  constructor
  · intro hfalse
    have hpair : checkRateLimit b0 now ctx.serviceName svc.rate_limit_per_minute =
        (false, (checkRateLimit b0 now ctx.serviceName svc.rate_limit_per_minute).2) := by
      rw [← hfalse]
    have hb := checkRateLimit_deny_state _ _ _ _ _ hpair
    have hmain : proxyHandler services g env ctx oracle b0 now =
        rejectWith 429 ("Rate limit exceeded for service \"" ++ ctx.serviceName ++
          "\". Limit: " ++ limitStr svc.rate_limit_per_minute ++ "/min") b0 := by
      unfold proxyHandler
      rw [hsvc]
      dsimp only
      rw [h1]
      dsimp only
      rw [h2]
      dsimp only
      rw [h3]
      dsimp only
      rw [hval]
      dsimp only
      rw [hpair]
      simp only []
      rw [hb]
      rw [if_pos (show ¬(false = true) by simp)]
    refine ⟨hmain, fun a _ => ?_⟩
    rw [hmain]
    rfl
  · intro b1 htrue
    unfold proxyHandler
    rw [hsvc]
    dsimp only
    rw [h1]
    dsimp only
    rw [h2]
    dsimp only
    rw [h3]
    dsimp only
    rw [hval]
    dsimp only
    rw [htrue]
    dsimp only
    rw [if_neg (show ¬¬(true = true) by simp)]
    by_cases hag : (agentRateStage ctx.agent b1 now).1 = true
    · rw [if_neg (not_not_intro hag)]
      cases hres : resolveSecret svc env with
      | none => rfl
      | some sv =>
        dsimp only
        cases hof : oracle.fetch with
        | success resp => rfl
        | failure msg =>
          dsimp only
          by_cases ht : (jsIncludes msg "timed out" || jsIncludes msg "timeout") = true
          · rw [if_pos ht]
          · rw [if_neg ht]
    · rw [if_pos hag]
      rfl

/-- Witness for C8: agent carol's request to the exhausted service
`openai` is answered 429 and no `agent:carol` bucket is created. -/
theorem c8_witness :
    proxyHandler [("openai", fxSvcLimited)] {} fxEnvOpenai fxCtxLimited fxOracleOk
        fxBucketsFull 10 =
      rejectWith 429 "Rate limit exceeded for service \"openai\". Limit: 1/min"
        fxBucketsFull ∧
    (proxyHandler [("openai", fxSvcLimited)] {} fxEnvOpenai fxCtxLimited fxOracleOk
        fxBucketsFull 10).buckets "agent:carol" = none := by
  have h := (c8_service_denial_preserves_agent_bucket [("openai", fxSvcLimited)] {}
    fxEnvOpenai fxCtxLimited fxOracleOk fxBucketsFull 10 fxSvcLimited rfl (by decide)
    rfl).1 (by decide)
  have hmsg : ("Rate limit exceeded for service \"" ++ fxCtxLimited.serviceName ++
      "\". Limit: " ++ limitStr fxSvcLimited.rate_limit_per_minute ++ "/min") =
      "Rate limit exceeded for service \"openai\". Limit: 1/min" := by decide
  rw [hmsg] at h
  refine ⟨h.1, ?_⟩
  rw [h.1]
  rfl

/-- C3 (counterexample to the claim as stated): a request that fails both
agent bob's IP allowlist and the effective Origin allowlist is answered
with the Origin error, not the agent-IP error — the Origin check (inside
`checkAllowlist`) runs before `checkAgentIpAllowlist`. -/
theorem c3_counterexample :
    (proxyHandler [("openai", fxSvcOrigin)] {} fxEnvNone fxCtxBothFail fxOracleOk
        fxNoBuckets 0).error =
      some "Origin \"https://evil.example\" is not in the allowlist" ∧
    checkAgentIpAllowlist fxCtxBothFail fxAgentBob =
      some "IP 1.2.3.4 is not in agent \"bob\" IP allowlist" ∧
    some "Origin \"https://evil.example\" is not in the allowlist" ≠
      (some "IP 1.2.3.4 is not in agent \"bob\" IP allowlist" : Option String) := by
  refine ⟨by decide, by decide, by decide⟩

/-- C3 (amended): the admission checks run in the fixed order (1) service
exists, (2) agent's allowed-service set, (3) effective service/global IP
allowlist, (4) effective Origin allowlist, (5) agent's own IP allowlist,
and the first failing check terminates the request with its error; in
particular, whenever the service/global allowlist stage (IP or Origin)
fails, its error is returned regardless of the later agent-IP check. -/
theorem c3_admission_order (services : List (String × ServiceConfig)) (g : GlobalConfig)
    (env : String → Option String) (ctx : ReqCtx) (oracle : Oracle)
    (b0 : Buckets) (now : Int) :
    (∀ s : Nat, ∀ e : String, admissionDecision services g ctx = some (s, e) →
      proxyHandler services g env ctx oracle b0 now = rejectWith s e b0) ∧
    (∀ svc : ServiceConfig, ∀ e2 : String,
      jsRecordGet services ctx.serviceName = some svc →
      agentServiceCheck ctx.agent ctx.serviceName = none →
      checkAllowlist ctx svc g = some e2 →
      proxyHandler services g env ctx oracle b0 now = rejectWith 403 e2 b0) := by
  have main : ∀ s : Nat, ∀ e : String, admissionDecision services g ctx = some (s, e) →
      proxyHandler services g env ctx oracle b0 now = rejectWith s e b0 := by
    intro s e hadm
    unfold admissionDecision at hadm
    unfold proxyHandler
    cases hsvc : jsRecordGet services ctx.serviceName with
    | none =>
      rw [hsvc] at hadm
      dsimp only at hadm
      simp only [Option.some.injEq, Prod.mk.injEq] at hadm
      obtain ⟨h1, h2⟩ := hadm
      subst h1
      subst h2
      rfl
    | some svc =>
      rw [hsvc] at hadm
      dsimp only at hadm
      dsimp only
      cases h1 : agentServiceCheck ctx.agent ctx.serviceName with
      | some e1 =>
        rw [h1] at hadm
        dsimp only at hadm
        simp only [Option.some.injEq, Prod.mk.injEq] at hadm
        obtain ⟨ha, hb⟩ := hadm
        subst ha
        subst hb
        rfl
      | none =>
        rw [h1] at hadm
        dsimp only at hadm
        dsimp only
        cases h2 : checkAllowlist ctx svc g with
        | some e2 =>
          rw [h2] at hadm
          dsimp only at hadm
          simp only [Option.some.injEq, Prod.mk.injEq] at hadm
          obtain ⟨ha, hb⟩ := hadm
          subst ha
          subst hb
          rfl
        | none =>
          rw [h2] at hadm
          dsimp only at hadm
          dsimp only
          cases h3 : agentIpStage ctx with
          | some e3 =>
            rw [h3] at hadm
            dsimp only at hadm
            simp only [Option.some.injEq, Prod.mk.injEq] at hadm
            obtain ⟨ha, hb⟩ := hadm
            subst ha
            subst hb
            rfl
          | none =>
            rw [h3] at hadm
            simp at hadm
  refine ⟨main, ?_⟩
  intro svc e2 hsvc h1 h2
  apply main
  unfold admissionDecision
  rw [hsvc]
  dsimp only
  rw [h1]
  dsimp only
  rw [h2]

/-- Witness for C3 (amended): on the both-fail request the handler
returns the Origin-allowlist rejection. -/
theorem c3_witness :
    proxyHandler [("openai", fxSvcOrigin)] {} fxEnvNone fxCtxBothFail fxOracleOk
        fxNoBuckets 0 =
      rejectWith 403 "Origin \"https://evil.example\" is not in the allowlist"
        fxNoBuckets :=
  (c3_admission_order [("openai", fxSvcOrigin)] {} fxEnvNone fxCtxBothFail fxOracleOk
    fxNoBuckets 0).1 403 "Origin \"https://evil.example\" is not in the allowlist"
    (by decide)

theorem substDollar_noDollar (m b a : List Char) :
    ∀ rep : List Char, (∀ c ∈ rep, c ≠ '$') → substDollar m b a rep = rep := by
  intro rep
  induction rep with
  | nil => intro _; rfl
  | cons c rest ih =>
    intro h
    have hc : c ≠ '$' := h c (List.mem_cons_self _ _)
    rw [substDollar.eq_def]
    dsimp only
    rw [if_neg (by simpa using hc), ih (fun c' h' => h c' (List.mem_cons_of_mem _ h'))]

theorem replaceFirstAux_plain (pat rep : List Char) (hnd : ∀ c ∈ rep, c ≠ '$') :
    ∀ (s acc : List Char), replaceFirstAux pat rep acc s = plainReplaceAux pat rep acc s := by
  intro s
  induction s with
  | nil =>
    intro acc
    simp only [replaceFirstAux, plainReplaceAux]
    rw [substDollar_noDollar _ _ _ rep hnd]
  | cons c rest ih =>
    intro acc
    simp only [replaceFirstAux, plainReplaceAux]
    rw [substDollar_noDollar _ _ _ rep hnd, ih (c :: acc)]

theorem jsReplace_plain (s pat rep : String) (hnd : ∀ c ∈ rep.data, c ≠ '$') :
    jsReplace s pat rep = specPlainSubst s pat rep := by
  unfold jsReplace specPlainSubst
  rw [replaceFirstAux_plain pat.data rep.data hnd]

theorem find_map_overwrite (k v : String) :
    ∀ m : List (String × String), m.any (fun kv => kv.1 == k) = true →
      (m.map (fun kv => if kv.1 == k then (k, v) else kv)).find? (fun kv => kv.1 == k) =
        some (k, v) := by
  intro m
  induction m with
  | nil => intro h; exact absurd h (by simp)
  | cons kv rest ih =>
    intro h
    simp only [List.map_cons]
    by_cases hk : (kv.1 == k) = true
    · rw [if_pos hk]
      simp [List.find?]
    · rw [if_neg hk]
      rw [List.find?_cons_of_neg _ (by simpa using hk)]
      apply ih
      rcases List.any_eq_true.mp h with ⟨x, hx, hpx⟩
      rcases List.mem_cons.mp hx with h' | h'
      · subst h'
        exact absurd hpx (by simpa using hk)
      · exact List.any_eq_true.mpr ⟨x, h', hpx⟩

theorem find_append_new (k v : String) :
    ∀ m : List (String × String), m.any (fun kv => kv.1 == k) = false →
      (m ++ [(k, v)]).find? (fun kv => kv.1 == k) = some (k, v) := by
  intro m
  induction m with
  | nil =>
    intro _
    simp [List.find?]
  | cons kv rest ih =>
    intro h
    simp only [List.any_cons, Bool.or_eq_false_iff] at h
    rw [List.cons_append, List.find?_cons_of_neg _ (by simpa using h.1)]
    exact ih h.2

theorem jsGetHeader_objSet (k v : String) (m : List (String × String)) :
    jsGetHeader (objSet m k v) k = some v := by
  unfold objSet jsGetHeader
  cases hany : m.any (fun kv => kv.1 == k) with
  | true =>
    rw [if_pos rfl, find_map_overwrite k v m hany]
    rfl
  | false =>
    rw [if_neg (by simp), find_append_new k v m hany]
    rfl

/-- C7 (amended): for every forwarded request to a service with header
auth whose secret environment value is set and non-empty, the outgoing
header named `header_name` equals the auth template with the single
`$\x7bSECRET\x7d` placeholder replaced by the environment value under
JavaScript `String.prototype.replace` semantics (first occurrence, with
`$`-escape processing of the replacement string), and this value
overwrites any value the caller supplied under that name (the conclusion
holds for every caller header map); whenever the secret value contains no
`$` character, the rendered header coincides with plain substring
substitution as the specification words it. -/
theorem c7_header_secret_injection
    (services : List (String × ServiceConfig)) (g : GlobalConfig)
    (env : String → Option String) (ctx : ReqCtx) (oracle : Oracle)
    (b0 : Buckets) (now : Int) (svc : ServiceConfig)
    (hn tmpl raw : String) (hs : List (String × String))
    (hsvc : jsRecordGet services ctx.serviceName = some svc)
    (hauth : svc.auth = AuthConfig.header hn tmpl)
    (hraw : env svc.secret_env = some raw) (hraw' : raw ≠ "")
    (houts : (proxyHandler services g env ctx oracle b0 now).outHeaders = some hs) :
    jsGetHeader hs hn = some (jsReplace tmpl "${SECRET}" raw) ∧
    ((∀ c ∈ raw.data, c ≠ '$') →
      jsGetHeader hs hn = some (specPlainSubst tmpl "${SECRET}" raw)) := by
  have hres : resolveSecret svc env = some (jsReplace tmpl "${SECRET}" raw) := by
    unfold resolveSecret
    rw [hraw]
    dsimp only
    rw [if_neg hraw', hauth]
    rfl
  have hhs : hs = objSet (sanitizeHeaders ctx.body.headers) hn
      (jsReplace tmpl "${SECRET}" raw) := by
    unfold proxyHandler at houts
    rw [hsvc] at houts
    dsimp only at houts
    cases h1 : agentServiceCheck ctx.agent ctx.serviceName with
    | some e1 => rw [h1] at houts; simp [rejectWith] at houts
    | none =>
    rw [h1] at houts
    dsimp only at houts
    cases h2 : checkAllowlist ctx svc g with
    | some e2 => rw [h2] at houts; simp [rejectWith] at houts
    | none =>
    rw [h2] at houts
    dsimp only at houts
    cases h3 : agentIpStage ctx with
    | some e3 => rw [h3] at houts; simp [rejectWith] at houts
    | none =>
    rw [h3] at houts
    dsimp only at houts
    cases h4 : validateRequest svc ctx.body with
    | some e4 => rw [h4] at houts; simp [rejectWith] at houts
    | none =>
    rw [h4] at houts
    dsimp only at houts
    by_cases hr1 : (checkRateLimit b0 now ctx.serviceName svc.rate_limit_per_minute).1 = true
    case neg =>
      rw [if_pos hr1] at houts
      simp [rejectWith] at houts
    case pos =>
    rw [if_neg (not_not_intro hr1)] at houts
    by_cases hr2 : (agentRateStage ctx.agent
        (checkRateLimit b0 now ctx.serviceName svc.rate_limit_per_minute).2 now).1 = true
    case neg =>
      rw [if_pos hr2] at houts
      simp [rejectWith] at houts
    case pos =>
    rw [if_neg (not_not_intro hr2)] at houts
    rw [hres] at houts
    dsimp only at houts
    rw [hauth] at houts
    cases hof : oracle.fetch with
    | success resp =>
      rw [hof] at houts
      dsimp only at houts
      exact (Option.some.injEq _ _ ▸ houts).symm
    | failure msg =>
      rw [hof] at houts
      dsimp only at houts
      by_cases ht : (jsIncludes msg "timed out" || jsIncludes msg "timeout") = true
      · rw [if_pos ht] at houts
        dsimp only at houts
        exact (Option.some.injEq _ _ ▸ houts).symm
      · rw [if_neg ht] at houts
        dsimp only at houts
        exact (Option.some.injEq _ _ ▸ houts).symm
  constructor
  · rw [hhs]
    exact jsGetHeader_objSet hn (jsReplace tmpl "${SECRET}" raw) (sanitizeHeaders ctx.body.headers)
  · intro hnod
    rw [hhs, ← jsReplace_plain tmpl "${SECRET}" raw hnod]
    exact jsGetHeader_objSet hn (jsReplace tmpl "${SECRET}" raw) (sanitizeHeaders ctx.body.headers)

/-- C7 (counterexample to the claim as stated): with the secret
environment value `x$&y`, the injected header is `Bearer x$\x7bSECRET\x7dy`
(JavaScript `replace` expands `$&` in the replacement to the matched
pattern), not the plain-substitution result `Bearer x$&y`. -/
theorem c7_counterexample :
    ((proxyHandler [("openai", fxSvcPlain)] {} fxEnvDollar fxCtxPlain fxOracleOk
        fxNoBuckets 0).outHeaders).map (fun hs => jsGetHeader hs "Authorization") =
      some (some "Bearer x${SECRET}y") ∧
    specPlainSubst "Bearer ${SECRET}" "${SECRET}" "x$&y" = "Bearer x$&y" ∧
    ("Bearer x${SECRET}y" : String) ≠ "Bearer x$&y" := by
  refine ⟨by decide, by decide, by decide⟩

/-- Witness for C7 (amended): the `$`-free secret `sk-test-1` is injected
as `Bearer sk-test-1`, overwriting the caller's `Authorization: Bearer
attacker` attempt, and agrees with plain substitution. -/
theorem c7_witness :
    jsGetHeader [("X-Custom", "1"), ("Authorization", "Bearer sk-test-1")]
        "Authorization" = some (jsReplace "Bearer ${SECRET}" "${SECRET}" "sk-test-1") ∧
    jsGetHeader [("X-Custom", "1"), ("Authorization", "Bearer sk-test-1")]
        "Authorization" =
      some (specPlainSubst "Bearer ${SECRET}" "${SECRET}" "sk-test-1") := by
  have h := c7_header_secret_injection [("openai", fxSvcPlain)] {} fxEnvOpenai
    fxCtxPlain fxOracleOk fxNoBuckets 0 fxSvcPlain "Authorization" "Bearer ${SECRET}"
    "sk-test-1" [("X-Custom", "1"), ("Authorization", "Bearer sk-test-1")]
    rfl rfl (by decide) (by decide) (by decide)
  exact ⟨h.1, h.2 (by decide)⟩

theorem spSet_countP (k v : String) :
    ∀ l : List (String × String), (spSet l k v).countP (fun kv => kv.1 == k) = 1 := by
  intro l
  induction l with
  | nil => simp [spSet, List.countP_cons]
  | cons kv rest ih =>
    by_cases hk : (kv.1 == k) = true
    · simp only [spSet, if_pos hk]
      have hz : (rest.filter (fun kv2 => !(kv2.1 == k))).countP
          (fun kv => kv.1 == k) = 0 := by
        apply List.countP_eq_zero.mpr
        intro a ha
        have := (List.mem_filter.mp ha).2
        simpa using this
      simp [List.countP_cons, hz]
    · simp only [spSet, if_neg hk]
      simp [List.countP_cons, hk, ih]

theorem spSet_values (k v : String) :
    ∀ l : List (String × String), ∀ kv2 ∈ spSet l k v, kv2.1 = k → kv2.2 = v := by
  intro l
  induction l with
  | nil =>
    intro kv2 h _
    simp [spSet] at h
    rw [h]
  | cons kv rest ih =>
    intro kv2 h hk
    by_cases hkk : (kv.1 == k) = true
    · simp only [spSet, if_pos hkk] at h
      rcases List.mem_cons.mp h with rfl | h'
      · rfl
      · have := (List.mem_filter.mp h').2
        simp [hk] at this
    · simp only [spSet, if_neg hkk] at h
      rcases List.mem_cons.mp h with rfl | h'
      · simp [hk] at hkk
      · exact ih kv2 h' hk

/-- C10: for every forwarded request to a service with query auth whose
secret environment value is set and non-empty, the outgoing URL's query
parameter list contains the parameter named `query_param` exactly once,
and its value is the rendered secret — any caller-supplied value for that
parameter (the conclusion holds for every caller path) is replaced, not
kept or duplicated. -/
theorem c10_query_secret_param
    (services : List (String × ServiceConfig)) (g : GlobalConfig)
    (env : String → Option String) (ctx : ReqCtx) (oracle : Oracle)
    (b0 : Buckets) (now : Int) (svc : ServiceConfig)
    (qp tmpl raw : String) (u : URLModel)
    (hsvc : jsRecordGet services ctx.serviceName = some svc)
    (hauth : svc.auth = AuthConfig.query qp tmpl)
    (hraw : env svc.secret_env = some raw) (hraw' : raw ≠ "")
    (hurl : (proxyHandler services g env ctx oracle b0 now).targetUrl = some u) :
    u.searchParams.countP (fun kv => kv.1 == qp) = 1 ∧
    (∀ kv ∈ u.searchParams, kv.1 = qp → kv.2 = jsReplace tmpl "${SECRET}" raw) := by
  have hres : resolveSecret svc env = some (jsReplace tmpl "${SECRET}" raw) := by
    unfold resolveSecret
    rw [hraw]
    dsimp only
    rw [if_neg hraw', hauth]
    rfl
  have hu : u.searchParams = spSet (newURL ctx.body.path svc.base_url).searchParams qp
      (jsReplace tmpl "${SECRET}" raw) := by
    unfold proxyHandler at hurl
    rw [hsvc] at hurl
    dsimp only at hurl
    cases h1 : agentServiceCheck ctx.agent ctx.serviceName with
    | some e1 => rw [h1] at hurl; simp [rejectWith] at hurl
    | none =>
    rw [h1] at hurl
    dsimp only at hurl
    cases h2 : checkAllowlist ctx svc g with
    | some e2 => rw [h2] at hurl; simp [rejectWith] at hurl
    | none =>
    rw [h2] at hurl
    dsimp only at hurl
    cases h3 : agentIpStage ctx with
    | some e3 => rw [h3] at hurl; simp [rejectWith] at hurl
    | none =>
    rw [h3] at hurl
    dsimp only at hurl
    cases h4 : validateRequest svc ctx.body with
    | some e4 => rw [h4] at hurl; simp [rejectWith] at hurl
    | none =>
    rw [h4] at hurl
    dsimp only at hurl
    by_cases hr1 : (checkRateLimit b0 now ctx.serviceName svc.rate_limit_per_minute).1 = true
    case neg =>
      rw [if_pos hr1] at hurl
      simp [rejectWith] at hurl
    case pos =>
    rw [if_neg (not_not_intro hr1)] at hurl
    by_cases hr2 : (agentRateStage ctx.agent
        (checkRateLimit b0 now ctx.serviceName svc.rate_limit_per_minute).2 now).1 = true
    case neg =>
      rw [if_pos hr2] at hurl
      simp [rejectWith] at hurl
    case pos =>
    rw [if_neg (not_not_intro hr2)] at hurl
    rw [hres] at hurl
    dsimp only at hurl
    rw [hauth] at hurl
    cases hof : oracle.fetch with
    | success resp =>
      rw [hof] at hurl
      dsimp only at hurl
      rw [← (Option.some.injEq _ _ ▸ hurl : _ = u)]
    | failure msg =>
      rw [hof] at hurl
      dsimp only at hurl
      by_cases ht : (jsIncludes msg "timed out" || jsIncludes msg "timeout") = true
      · rw [if_pos ht] at hurl
        dsimp only at hurl
        rw [← (Option.some.injEq _ _ ▸ hurl : _ = u)]
      · rw [if_neg ht] at hurl
        dsimp only at hurl
        rw [← (Option.some.injEq _ _ ▸ hurl : _ = u)]
  rw [hu]
  exact ⟨spSet_countP qp (jsReplace tmpl "${SECRET}" raw) _,
    spSet_values qp (jsReplace tmpl "${SECRET}" raw) _⟩

/-- Witness for C10: the caller path `/p?api_key=mine&z=1&api_key=2`
carries the credential parameter twice; the outgoing URL carries it
exactly once, bound to the real secret. -/
theorem c10_witness :
    ([("api_key", "real-secret"), ("z", "1")] : List (String × String)).countP
        (fun kv => kv.1 == "api_key") = 1 ∧
    (∀ kv ∈ ([("api_key", "real-secret"), ("z", "1")] : List (String × String)),
      kv.1 = "api_key" → kv.2 = jsReplace "${SECRET}" "${SECRET}" "real-secret") := by
  have h := c10_query_secret_param [("q", fxSvcQuery)] {} fxEnvQuery fxCtxQuery
    fxOracleOk fxNoBuckets 0 fxSvcQuery "api_key" "${SECRET}" "real-secret"
    ⟨"h.example", [("api_key", "real-secret"), ("z", "1")]⟩
    rfl rfl (by decide) (by decide) (by decide)
  exact h

/-- C9: the structured log line is built only from the agent name,
service name, method, caller path, upstream status or error message,
latency and timestamp — two executions of the handler that are identical
except for the (set, non-empty) value of the secret environment variable,
with the same upstream outcome and timing, emit the same log record and
hence character-identical rendered log lines. -/
theorem c9_secret_log_noninterference
    (services : List (String × ServiceConfig)) (g : GlobalConfig)
    (env1 env2 : String → Option String) (ctx : ReqCtx) (oracle : Oracle)
    (b0 : Buckets) (now : Int) (svc : ServiceConfig) (s1 s2 : String)
    (hsvc : jsRecordGet services ctx.serviceName = some svc)
    (_henv : ∀ k, k ≠ svc.secret_env → env1 k = env2 k)
    (h1 : env1 svc.secret_env = some s1) (h1n : s1 ≠ "")
    (h2 : env2 svc.secret_env = some s2) (h2n : s2 ≠ "") :
    (proxyHandler services g env1 ctx oracle b0 now).log =
      (proxyHandler services g env2 ctx oracle b0 now).log ∧
    Option.map renderLog ((proxyHandler services g env1 ctx oracle b0 now).log) =
      Option.map renderLog ((proxyHandler services g env2 ctx oracle b0 now).log) := by
  have hres1 : resolveSecret svc env1 = some (jsReplace svc.auth.template "${SECRET}" s1) := by
    unfold resolveSecret
    rw [h1]
    dsimp only
    rw [if_neg h1n]
  have hres2 : resolveSecret svc env2 = some (jsReplace svc.auth.template "${SECRET}" s2) := by
    unfold resolveSecret
    rw [h2]
    dsimp only
    rw [if_neg h2n]
  have hmain : (proxyHandler services g env1 ctx oracle b0 now).log =
      (proxyHandler services g env2 ctx oracle b0 now).log := by
    unfold proxyHandler
    rw [hsvc]
    dsimp only
    cases hc1 : agentServiceCheck ctx.agent ctx.serviceName with
    | some e1 => rfl
    | none =>
    dsimp only
    cases hc2 : checkAllowlist ctx svc g with
    | some e2 => rfl
    | none =>
    dsimp only
    cases hc3 : agentIpStage ctx with
    | some e3 => rfl
    | none =>
    dsimp only
    cases hc4 : validateRequest svc ctx.body with
    | some e4 => rfl
    | none =>
    dsimp only
    by_cases hr1 : (checkRateLimit b0 now ctx.serviceName svc.rate_limit_per_minute).1 = true
    case neg =>
      rw [if_pos hr1, if_pos hr1]
    case pos =>
    rw [if_neg (not_not_intro hr1), if_neg (not_not_intro hr1)]
    by_cases hr2 : (agentRateStage ctx.agent
        (checkRateLimit b0 now ctx.serviceName svc.rate_limit_per_minute).2 now).1 = true
    case neg =>
      rw [if_pos hr2, if_pos hr2]
    case pos =>
    rw [if_neg (not_not_intro hr2), if_neg (not_not_intro hr2)]
    rw [hres1, hres2]
    dsimp only
    cases hof : oracle.fetch with
    | success resp => rfl
    | failure msg =>
      dsimp only
      by_cases ht : (jsIncludes msg "timed out" || jsIncludes msg "timeout") = true
      · rw [if_pos ht, if_pos ht]
      · rw [if_neg ht, if_neg ht]
  exact ⟨hmain, by rw [hmain]⟩

/-- Witness for C9: two environments that differ only in the secret
value (`sk-test-1` vs `x$&y`) produce identical log lines. -/
theorem c9_witness :
    (proxyHandler [("openai", fxSvcPlain)] {} fxEnvOpenai fxCtxPlain fxOracleOk
        fxNoBuckets 0).log =
      (proxyHandler [("openai", fxSvcPlain)] {} fxEnvDollar fxCtxPlain fxOracleOk
        fxNoBuckets 0).log :=
  (c9_secret_log_noninterference [("openai", fxSvcPlain)] {} fxEnvOpenai fxEnvDollar
    fxCtxPlain fxOracleOk fxNoBuckets 0 fxSvcPlain "sk-test-1" "x$&y" rfl
    (by intro k hk; simp [fxEnvOpenai, fxEnvDollar, show k ≠ "OPENAI_KEY" from hk])
    (by decide) (by decide)
    (by decide) (by decide)).1

/-- C1 (the code evaluated at the failing input): the protocol-relative
path `//evil.com/x` passes `validateRequest` (it starts with `/` and does
not match the `^https?://` test), yet the upstream URL the handler builds
resolves to host `evil.com`, not the base host `api.openai.com` — the
path validation does not prevent forwarding to a foreign host. -/
theorem c1_open_relay_failing_input :
    validateRequest fxSvcPlain fxCtxRelay.body = none ∧
    (proxyHandler [("openai", fxSvcPlain)] {} fxEnvOpenai fxCtxRelay fxOracleOk
        fxNoBuckets 0).targetUrl = some ⟨"evil.com", []⟩ ∧
    urlHostname fxSvcPlain.base_url = "api.openai.com" ∧
    ("evil.com" : String) ≠ "api.openai.com" := by
  refine ⟨by decide, by decide, by decide, by decide⟩

theorem byteAt_fst (a b c d : Nat) : byteAt [a, b, c, d] 0 = a := rfl

theorem byteAt_snd (a b c d : Nat) : byteAt [a, b, c, d] 1 = b := rfl

theorem byteAt_thd (a b c d : Nat) : byteAt [a, b, c, d] 2 = c := rfl

theorem byteAt_fth (a b c d : Nat) : byteAt [a, b, c, d] 3 = d := rfl

theorem bytesEqUpTo_zero (c e : List Nat) : bytesEqUpTo c e 0 = true := rfl

theorem bytesEqUpTo_one (c e : List Nat) :
    bytesEqUpTo c e 1 = (true && (byteAt c 0 == byteAt e 0)) := rfl

theorem bytesEqUpTo_two (c e : List Nat) :
    bytesEqUpTo c e 2 =
      ((true && (byteAt c 0 == byteAt e 0)) && (byteAt c 1 == byteAt e 1)) := rfl

theorem bytesEqUpTo_three (c e : List Nat) :
    bytesEqUpTo c e 3 =
      (((true && (byteAt c 0 == byteAt e 0)) && (byteAt c 1 == byteAt e 1)) &&
        (byteAt c 2 == byteAt e 2)) := rfl

theorem bytesEqUpTo_four (c e : List Nat) :
    bytesEqUpTo c e 4 =
      ((((true && (byteAt c 0 == byteAt e 0)) && (byteAt c 1 == byteAt e 1)) &&
        (byteAt c 2 == byteAt e 2)) && (byteAt c 3 == byteAt e 3)) := rfl

theorem land_top1 : ∀ b < 256, b &&& 32640 = b / 128 * 128 := by decide

theorem land_top2 : ∀ b < 256, b &&& 16320 = b / 64 * 64 := by decide

theorem land_top3 : ∀ b < 256, b &&& 8160 = b / 32 * 32 := by decide

theorem land_top4 : ∀ b < 256, b &&& 4080 = b / 16 * 16 := by decide

theorem land_top5 : ∀ b < 256, b &&& 2040 = b / 8 * 8 := by decide

theorem land_top6 : ∀ b < 256, b &&& 1020 = b / 4 * 4 := by decide

theorem land_top7 : ∀ b < 256, b &&& 510 = b / 2 * 2 := by decide

theorem v4_match_bits (n c0 c1 c2 c3 e0 e1 e2 e3 : Nat)
    (hn : n ≤ 32)
    (hc0 : c0 < 256) (hc1 : c1 < 256) (hc2 : c2 < 256) (hc3 : c3 < 256)
    (he0 : e0 < 256) (he1 : e1 < 256) (he2 : e2 < 256) (he3 : e3 < 256) :
    ((bytesEqUpTo [c0, c1, c2, c3] [e0, e1, e2, e3] (n / 8) &&
      (if n % 8 > 0 then
        byteAt [c0, c1, c2, c3] (n / 8) &&& (255 <<< (8 - n % 8)) ==
          byteAt [e0, e1, e2, e3] (n / 8) &&& (255 <<< (8 - n % 8))
      else true)) = true) ↔
    (((c0 * 256 + c1) * 256 + c2) * 256 + c3) / 2 ^ (32 - n) =
      (((e0 * 256 + e1) * 256 + e2) * 256 + e3) / 2 ^ (32 - n) := by
  interval_cases n <;>
    norm_num [bytesEqUpTo_zero, bytesEqUpTo_one, bytesEqUpTo_two, bytesEqUpTo_three,
      bytesEqUpTo_four, byteAt_fst, byteAt_snd, byteAt_thd, byteAt_fth,
      Nat.shiftLeft_eq, Bool.and_eq_true, beq_iff_eq,
      land_top1, land_top2, land_top3, land_top4, land_top5, land_top6, land_top7,
      hc0, hc1, hc2, hc3, he0, he1, he2, he3] <;>
    omega

/-- C2: for every valid IPv4 CIDR entry (`parseCidr` succeeds on it with
an IPv4 base address and prefix length `n ≤ 32`) and every valid IPv4
client address with octets `c0.c1.c2.c3` (each < 256, as `net.isIPv4`
guarantees), `ipMatchesEntry` returns true exactly when the top `n` bits
of the client's 32-bit value equal the top `n` bits of the entry's — the
byte-wise loop with the partial-byte mask `0xff << (8 - n % 8)` computes
precisely top-`n`-bit equality. -/
theorem c2_ipv4_cidr_matching
    (x entry ip : String) (n : Nat) (c0 c1 c2 c3 e0 e1 e2 e3 : Nat)
    (hparse : parseCidr entry = some ⟨ip, n⟩) (hn : n ≤ 32)
    (hx4 : isIPv4String x = true) (hip4 : isIPv4String ip = true)
    (hxb : ipToBytes x = [c0, c1, c2, c3]) (hib : ipToBytes ip = [e0, e1, e2, e3])
    (hc0 : c0 < 256) (hc1 : c1 < 256) (hc2 : c2 < 256) (hc3 : c3 < 256)
    (he0 : e0 < 256) (he1 : e1 < 256) (he2 : e2 < 256) (he3 : e3 < 256) :
    ipMatchesEntry x entry = true ↔
      (((c0 * 256 + c1) * 256 + c2) * 256 + c3) / 2 ^ (32 - n) =
        (((e0 * 256 + e1) * 256 + e2) * 256 + e3) / 2 ^ (32 - n) := by
  unfold ipMatchesEntry
  rw [hparse]
  dsimp only
  rw [hx4, hip4]
  rw [if_neg (by simp)]
  rw [hxb, hib]
  exact v4_match_bits n c0 c1 c2 c3 e0 e1 e2 e3 hn hc0 hc1 hc2 hc3 he0 he1 he2 he3

/-- Witness for C2 at the claim examples: `10.0.0.5` matches
`10.0.0.0/22` (the top 22 bits agree) and `10.0.4.1` does not. -/
theorem c2_witness :
    (ipMatchesEntry "10.0.0.5" "10.0.0.0/22" = true ↔
      (((10 * 256 + 0) * 256 + 0) * 256 + 5) / 2 ^ (32 - 22) =
        (((10 * 256 + 0) * 256 + 0) * 256 + 0) / 2 ^ (32 - 22)) ∧
    ipMatchesEntry "10.0.0.5" "10.0.0.0/22" = true ∧
    ipMatchesEntry "10.0.4.1" "10.0.0.0/22" = false := by
  refine ⟨?_, by decide, by decide⟩
  exact c2_ipv4_cidr_matching "10.0.0.5" "10.0.0.0/22" "10.0.0.0" 22 10 0 0 5 10 0 0 0
    (by decide) (by decide) (by decide) (by decide) (by decide) (by decide)
    (by decide) (by decide) (by decide) (by decide) (by decide) (by decide)
    (by decide) (by decide)

theorem bytesEqUpTo_iff_forall :
    ∀ (k : Nat) (c e : List Nat),
      (bytesEqUpTo c e k = true ↔ ∀ i < k, byteAt c i = byteAt e i) := by
  intro k
  induction k with
  | zero => intro c e; simp [bytesEqUpTo]
  | succ k ih =>
    intro c e
    rw [bytesEqUpTo]
    simp only [Bool.and_eq_true, beq_iff_eq, ih]
    constructor
    · rintro ⟨h1, h2⟩ i hi
      rcases Nat.lt_succ_iff_lt_or_eq.mp hi with h | h
      · exact h1 i h
      · subst h
        exact h2
    · intro h
      exact ⟨fun i hi => h i (Nat.lt_succ_of_lt hi), h k (Nat.lt_succ_self k)⟩

theorem ipToBytes_nonV4_length (x : String) (hx : isIPv4String x = false) :
    (ipToBytes x).length = 16 := by
  rw [ipToBytes, if_neg (by simp [hx])]
  rfl

/-- C5: (1) a client address and a CIDR entry of different address
families (as classified by `net.isIPv4`) never match, for every prefix
length; (2) `expandIPv6` expands `::1` to seven `0000` groups followed by
`0001`; (3) matching any non-IPv4 client string against `::1/128`
succeeds exactly when its 16 expanded bytes equal those of `::1` — i.e.
only for the address `::1` itself (in any of its textual spellings). -/
theorem c5_family_and_v6_expansion :
    (∀ clientIp entry : String, ∀ c : Cidr, parseCidr entry = some c →
      isIPv4String clientIp ≠ isIPv4String c.ip →
      ipMatchesEntry clientIp entry = false) ∧
    expandIPv6 "::1" =
      ["0000", "0000", "0000", "0000", "0000", "0000", "0000", "0001"] ∧
    (∀ x : String, isIPv4String x = false →
      (ipMatchesEntry x "::1/128" = true ↔ ipToBytes x = ipToBytes "::1")) := by
  refine ⟨?_, by decide, ?_⟩
  · intro clientIp entry c hp hfam
    unfold ipMatchesEntry
    rw [hp]
    dsimp only
    cases h1 : isIPv4String clientIp <;> cases h2 : isIPv4String c.ip
    · rw [h1, h2] at hfam
      exact absurd rfl hfam
    · rw [if_pos (by decide)]
    · rw [if_pos (by decide)]
    · rw [h1, h2] at hfam
      exact absurd rfl hfam
  · intro x hx4
    have hp : parseCidr "::1/128" = some ⟨"::1", 128⟩ := by decide
    unfold ipMatchesEntry
    rw [hp]
    dsimp only
    rw [hx4, show isIPv4String "::1" = false from by decide]
    rw [if_neg (by decide)]
    norm_num
    rw [bytesEqUpTo_iff_forall]
    constructor
    · intro h
      apply List.ext_getElem
      · rw [ipToBytes_nonV4_length x hx4,
          show (ipToBytes "::1").length = 16 from by decide]
      · intro i h1 h2
        have hi : i < 16 := by
          rw [ipToBytes_nonV4_length x hx4] at h1
          exact h1
        have hb := h i hi
        rwa [byteAt, byteAt, List.getD_eq_getElem _ _ h1,
          List.getD_eq_getElem _ _ h2] at hb
    · intro h i _
      rw [byteAt, byteAt, h]

/-- Witness for C5: the IPv4 address `1.2.3.4` never matches `::1/128`;
the alternative spelling `0:0:0:0:0:0:0:1` of `::1` does match it. -/
theorem c5_witness :
    ipMatchesEntry "1.2.3.4" "::1/128" = false ∧
    (ipMatchesEntry "0:0:0:0:0:0:0:1" "::1/128" = true ↔
      ipToBytes "0:0:0:0:0:0:0:1" = ipToBytes "::1") ∧
    ipMatchesEntry "0:0:0:0:0:0:0:1" "::1/128" = true := by
  refine ⟨c5_family_and_v6_expansion.1 "1.2.3.4" "::1/128" ⟨"::1", 128⟩ (by decide)
      (by decide),
    c5_family_and_v6_expansion.2.2 "0:0:0:0:0:0:0:1" (by decide), ?_⟩
  exact (c5_family_and_v6_expansion.2.2 "0:0:0:0:0:0:0:1" (by decide)).mpr (by decide)
